import Mathlib

/-!
Shallow embedding of the zclsyntax parser (src/zcl/zclsyntax/parser.go) of the
dav009/hcl2 repository, together with models of the collaborating data types
(package zcl: Pos, Range, Diagnostic; the token stream peeker) which belong to
this repository but are declared outside the provided sources; those models
follow the specification's data-model and interface sections (spec.md sections
3 and 4.1).

Token raw bytes are modelled as lists of characters; this is an exact model of
the Go byte handling for inputs whose bytes are ASCII, which covers every
concrete input analysed here.
-/

namespace Zcl

/-- Token types, a closed enumeration.  Modelled from the spec: the token-type
enumeration is declared in the repository's token.go, which is not among the
provided sources; the constructors here are exactly those the parser code
refers to, plus TokenNumberLit used as an attribute-value token. -/
inductive TokenType where
  | TokenNil
  | TokenIdent
  | TokenEqual
  | TokenNewline
  | TokenEOF
  | TokenOBrace
  | TokenCBrace
  | TokenOBrack
  | TokenCBrack
  | TokenOParen
  | TokenCParen
  | TokenOQuote
  | TokenCQuote
  | TokenOHeredoc
  | TokenCHeredoc
  | TokenQuotedLit
  | TokenStringLit
  | TokenTemplateInterp
  | TokenTemplateControl
  | TokenTemplateSeqEnd
  | TokenNumberLit
  deriving DecidableEq, Repr

open TokenType

/-- Modelled from the spec: zcl.Pos (package zcl is part of this repository but
not among the provided sources).  Line is 1-based, column is 1-based counted in
grapheme clusters, byte is the byte offset. -/
structure Pos where
  line : Nat
  column : Nat
  byte : Nat
  deriving DecidableEq, Repr

/-- Modelled from the spec: zcl.Range; `stop` is the Go field `End` (a reserved
word in Lean), end-exclusive. -/
structure Range where
  filename : String
  start : Pos
  stop : Pos
  deriving DecidableEq, Repr

/-- Modelled from the spec: zcl.RangeBetween yields the smallest range spanning
both arguments (filename and start of the first, end of the second). -/
def rangeBetween (a b : Range) : Range :=
  { filename := a.filename, start := a.start, stop := b.stop }

/-- Modelled from the spec: zcl.Range.String renders a range as
"filename:line,startCol-endCol" (adding the end line when it differs); used
verbatim inside the "Attribute redefined" diagnostic detail. -/
def rangeString (r : Range) : String :=
  if r.start.line = r.stop.line then
    r.filename ++ ":" ++ toString r.start.line ++ "," ++ toString r.start.column
      ++ "-" ++ toString r.stop.column
  else
    r.filename ++ ":" ++ toString r.start.line ++ "," ++ toString r.start.column
      ++ "-" ++ toString r.stop.line ++ "," ++ toString r.stop.column

/-- Modelled from the spec: zcl diagnostic severity. -/
inductive DiagSeverity where
  | DiagError
  | DiagWarning
  deriving DecidableEq, Repr

/-- Modelled from the spec: zcl.Diagnostic (summary, detail, subject range and
optional context range). -/
structure Diagnostic where
  severity : DiagSeverity
  summary : String
  detail : String
  subject : Option Range
  context : Option Range
  deriving DecidableEq, Repr

abbrev Diags := List Diagnostic

/-- Diagnostics.HasErrors: whether any collected diagnostic is an error. -/
def hasErrors (ds : Diags) : Bool :=
  ds.any fun d =>
    match d.severity with
    | DiagSeverity.DiagError => true
    | DiagSeverity.DiagWarning => false

/-- A token: type tag, raw bytes (modelled as characters) and source range. -/
structure Token where
  type : TokenType
  bytes : List Char
  range : Range
  deriving DecidableEq, Repr

/-- The zero value of the Go Token struct (used for cQuote when
parseQuotedStringLiteral exits its loop without seeing a closing quote). -/
def zeroToken : Token :=
  { type := TokenNil, bytes := [],
    range := { filename := "", start := ⟨0, 0, 0⟩, stop := ⟨0, 0, 0⟩ } }

/-- Modelled from the spec: the parser state.  The peeker (peeker.go, part of
this repository but not among the provided sources) is a lookahead token
stream: `toks` are the unread tokens, `last` is the range of the most recently
consumed token (PrevRange).  `recovery` is the parser's noise-suppression flag
(parser.go line 19). -/
structure PState where
  toks : List Token
  last : Range
  recovery : Bool
  deriving DecidableEq, Repr

/-- Modelled from the spec: peeker.Peek returns the next unread token without
consuming it; when the stream is exhausted it keeps returning an EOF token (the
scanner always ends the stream with one). -/
def PState.peek (st : PState) : Token :=
  st.toks.headD { type := TokenEOF, bytes := [], range := st.last }

/-- Modelled from the spec: peeker.Read consumes and returns the next token;
the peeker never advances past a TokenEOF, so reading an EOF leaves the state
(including PrevRange) unchanged. -/
def PState.read (st : PState) : Token × PState :=
  match st.toks with
  | [] => ({ type := TokenEOF, bytes := [], range := st.last }, st)
  | t :: rest =>
    if t.type = TokenEOF then (t, st)
    else (t, { st with toks := rest, last := t.range })

/-!  The escape decoder (parser.go decodeStringLit, lines 339-488). -/

/-- Grapheme-cluster segmentation of the raw bytes.  Modelled from the spec:
the Go code delegates to the external textseg library; per the spec (section
4.6) the decisive property is that the two-byte CR-LF line ending forms a
single cluster.  For the ASCII inputs modelled here every other character is
its own cluster. -/
def scanGraphemeClusters : List Char → List (List Char)
  | [] => []
  | '\r' :: '\n' :: rest => ['\r', '\n'] :: scanGraphemeClusters rest
  | c :: rest => [c] :: scanGraphemeClusters rest

/-- Detail text of the "Invalid escape sequence" diagnostic when the offending
character is a template marker (parser.go lines 407-411). -/
def invalidEscDetailMarker (s : String) : String :=
  "The characters \"\\" ++ s ++ "\" do not form a recognized escape sequence. To escape a \""
    ++ s ++ "\x7b\" template sequence, use \"" ++ s ++ s ++ "\x7b\"."

/-- Detail text of the "Invalid escape sequence" diagnostic in the general case
(parser.go line 413). -/
def invalidEscDetailPlain (s : String) : String :=
  "The characters \"\\" ++ s ++ "\" do not form a recognized escape sequence."

/-- State threaded through decodeStringLit's character loop: the position of
the next character, the pending escape buffer, the output bytes and the
diagnostics collected so far. -/
structure DecSt where
  newPos : Pos
  esc : List Char
  ret : List Char
  diags : Diags
  deriving DecidableEq, Repr

/-- One iteration of decodeStringLit's character loop (parser.go lines
360-485), processing a single grapheme cluster `ch`. -/
def decodeStep (quoted : Bool) (filename : String) (st : DecSt) (ch : List Char) : DecSt :=
  let pos := st.newPos
  let isNl : Bool :=
    match ch with
    | ['\n'] => true
    | [_, '\n'] => true
    | _ => false
  let newPos : Pos :=
    if isNl then { line := pos.line + 1, column := 0, byte := pos.byte + ch.length }
    else { line := pos.line, column := pos.column + 1, byte := pos.byte + ch.length }
  match st.esc with
  | [] =>
    -- no pending escape (parser.go lines 467-484)
    if ch = ['\\'] then
      if quoted then { st with newPos := newPos, esc := ['\\'] }
      else { st with newPos := newPos, ret := st.ret ++ ch }
    else if ch = ['$'] then { st with newPos := newPos, esc := ['$'] }
    else if ch = ['!'] then { st with newPos := newPos, esc := ['!'] }
    else { st with newPos := newPos, ret := st.ret ++ ch }
  | e0 :: escRest =>
    if e0 = '\\' then
      -- pending backslash escape (parser.go lines 376-436)
      if ch = ['n'] then { st with newPos := newPos, ret := st.ret ++ ['\n'], esc := [] }
      else if ch = ['r'] then { st with newPos := newPos, ret := st.ret ++ ['\r'], esc := [] }
      else if ch = ['t'] then { st with newPos := newPos, ret := st.ret ++ ['\t'], esc := [] }
      else if ch = ['"'] then { st with newPos := newPos, ret := st.ret ++ ['"'], esc := [] }
      else if ch = ['\\'] then { st with newPos := newPos, ret := st.ret ++ ['\\'], esc := [] }
      else
        let chS := String.mk ch
        let detail :=
          if ch = ['$'] ∨ ch = ['!'] then invalidEscDetailMarker chS
          else invalidEscDetailPlain chS
        { st with
          newPos := newPos
          ret := st.ret ++ ch
          esc := []
          diags := st.diags ++ [{
            severity := DiagSeverity.DiagError
            summary := "Invalid escape sequence"
            detail := detail
            subject := some {
              filename := filename
              start := { line := pos.line, column := pos.column - 1, byte := pos.byte - 1 }
              stop := { line := pos.line, column := pos.column + 1, byte := pos.byte + ch.length } }
            context := none }] }
    else if e0 = '$' ∨ e0 = '!' then
      match escRest with
      | [] =>
        -- pending marker escape of length 1 (parser.go lines 440-450)
        if ch = [e0] then { st with newPos := newPos, esc := st.esc ++ [e0] }
        else { st with newPos := newPos, ret := st.ret ++ st.esc ++ ch, esc := [] }
      | _ =>
        -- pending marker escape of length 2 (parser.go lines 451-460); the
        -- buffer never exceeds two characters (the Go default branch panics)
        if ch = ['{'] then { st with newPos := newPos, ret := st.ret ++ [e0] ++ ch, esc := [] }
        else { st with newPos := newPos, ret := st.ret ++ st.esc ++ ch, esc := [] }
    else
      -- unreachable: the escape buffer only ever receives a backslash or a
      -- template marker (the Go switch silently skips such a character)
      { st with newPos := newPos }

/-- Decoding fold over all grapheme clusters, starting from an empty escape
buffer at the token's start position. -/
def decodeFold (quoted : Bool) (filename : String) (startPos : Pos)
    (clusters : List (List Char)) : DecSt :=
  clusters.foldl (decodeStep quoted filename)
    { newPos := startPos, esc := [], ret := [], diags := [] }

/-- The body of decodeStringLit after the token-type dispatch: resolve escape
sequences in the raw bytes (parser.go lines 349-487).  A pending escape buffer
left at end of input is dropped, exactly as in the source. -/
def decodeStringLitCore (quoted : Bool) (filename : String) (startPos : Pos)
    (bytes : List Char) : String × Diags :=
  let final := decodeFold quoted filename startPos (scanGraphemeClusters bytes)
  (String.mk final.ret, final.diags)

/-- decodeStringLit (parser.go lines 339-488).  The Go function panics unless
the token is a TokenQuotedLit or TokenStringLit; the panic is modelled as
`none`. -/
def decodeStringLit (tok : Token) : Option (String × Diags) :=
  match tok.type with
  | TokenQuotedLit =>
    some (decodeStringLitCore true tok.range.filename tok.range.start tok.bytes)
  | TokenStringLit =>
    some (decodeStringLitCore false tok.range.filename tok.range.start tok.bytes)
  | _ => none

/-!  Error recovery (parser.go lines 490-639). -/

/-- oppositeBracket (parser.go lines 602-639): the fixed pairing table over
bracketer token types; TokenNil for non-bracketers. -/
def oppositeBracket (ty : TokenType) : TokenType :=
  match ty with
  | TokenOBrace => TokenCBrace
  | TokenOBrack => TokenCBrack
  | TokenOParen => TokenCParen
  | TokenOQuote => TokenCQuote
  | TokenOHeredoc => TokenCHeredoc
  | TokenCBrace => TokenOBrace
  | TokenCBrack => TokenOBrack
  | TokenCParen => TokenOParen
  | TokenCQuote => TokenOQuote
  | TokenCHeredoc => TokenOHeredoc
  | TokenTemplateControl => TokenTemplateSeqEnd
  | TokenTemplateInterp => TokenTemplateSeqEnd
  | TokenTemplateSeqEnd => TokenTemplateInterp
  | _ => TokenNil

/-- The normalization applied to each scanned token type inside recover
(parser.go lines 506-512): when looking for a template-sequence-end, a
template-control opener counts as a template-interp opener, since both oppose
the single closer. -/
def normTy (fin : TokenType) (t : Token) : TokenType :=
  if fin = TokenTemplateSeqEnd ∧ t.type = TokenTemplateControl then TokenTemplateInterp
  else t.type

/-- The scanning loop of recover (parser.go lines 502-526).  Reading follows
the peeker contract: a TokenEOF is returned but never consumed.  When the
sought terminator is itself TokenEOF and the nesting count is positive, the
Go loop re-reads the unconsumed EOF, decrementing the count on each re-read
with no other state change, until the count reaches zero and it returns; that
countdown is collapsed into its net effect (return with the EOF unconsumed and
the last-read range unchanged) so the recursion is structural on the token
list. -/
def recoverLoop (start fin : TokenType) (nest : Nat) :
    List Token → Range → List Token × Range
  | [], last => ([], last)
  | t :: rest, last =>
    if normTy fin t = start then recoverLoop start fin (nest + 1) rest t.range
    else if normTy fin t = fin then
      if nest < 1 then
        if t.type = TokenEOF then (t :: rest, last) else (rest, t.range)
      else
        if t.type = TokenEOF then (t :: rest, last)
        else recoverLoop start fin (nest - 1) rest t.range
    else if normTy fin t = TokenEOF then (t :: rest, last)
    else recoverLoop start fin nest rest t.range

/-- recover (parser.go lines 498-527): set the recovery flag, then scan
forward, counting nested bracket pairs, until the given terminator is found at
nesting level zero (or EOF). -/
def recoverState (fin : TokenType) (st : PState) : PState :=
  let start := oppositeBracket fin
  let res := recoverLoop start fin 0 st.toks st.last
  { toks := res.1, last := res.2, recovery := true }

/-- The leading scan of recoverOver (parser.go lines 541-548): consume tokens
until the given opener (consumed) or EOF (left in place). -/
def recoverOverScan (start : TokenType) : List Token → Range → List Token × Range
  | [], last => ([], last)
  | t :: rest, last =>
    if t.type = TokenEOF then (t :: rest, last)
    else if t.type = start then (rest, t.range)
    else recoverOverScan start rest t.range

/-- recoverOver (parser.go lines 537-553): scan to the first occurrence of the
given opener, then recover past its matching closer. -/
def recoverOverState (start : TokenType) (st : PState) : PState :=
  let fin := oppositeBracket start
  let res := recoverOverScan start st.toks st.last
  recoverState fin { st with toks := res.1, last := res.2 }

/-- Closer handling inside recoverAfterBodyItem (parser.go lines 576-583):
discard stack entries above the matching opener, then pop the opener itself if
present; mismatched or extra closers simply empty part of the stack, never
going negative. -/
def popToOpener (opener : TokenType) (openStack : List TokenType) : List TokenType :=
  (openStack.dropWhile fun o => decide (o ≠ opener)).tail

/-- Template-sequence-end handling inside recoverAfterBodyItem (parser.go
lines 585-591): pop down to and including the nearest template opener of
either kind. -/
def popToTemplateOpener (openStack : List TokenType) : List TokenType :=
  (openStack.dropWhile fun o =>
    decide (o ≠ TokenTemplateInterp ∧ o ≠ TokenTemplateControl)).tail

/-- The scanning loop of recoverAfterBodyItem (parser.go lines 559-594),
maintaining the stack of currently-open bracketers.  The stack is modelled
with its top at the head of the list (the Go slice keeps the top at the end).
A newline terminates the scan only when the stack is empty; EOF always
terminates (and is left unconsumed, per the peeker contract). -/
def recoverAfterBodyItemLoop : List Token → List TokenType → Range → List Token × Range
  | [], _, last => ([], last)
  | t :: rest, openStack, last =>
    match t.type with
    | TokenNewline =>
      if openStack.isEmpty then (rest, t.range)
      else recoverAfterBodyItemLoop rest openStack t.range
    | TokenEOF => (t :: rest, last)
    | TokenOBrace => recoverAfterBodyItemLoop rest (TokenOBrace :: openStack) t.range
    | TokenOBrack => recoverAfterBodyItemLoop rest (TokenOBrack :: openStack) t.range
    | TokenOParen => recoverAfterBodyItemLoop rest (TokenOParen :: openStack) t.range
    | TokenOQuote => recoverAfterBodyItemLoop rest (TokenOQuote :: openStack) t.range
    | TokenOHeredoc => recoverAfterBodyItemLoop rest (TokenOHeredoc :: openStack) t.range
    | TokenTemplateInterp =>
      recoverAfterBodyItemLoop rest (TokenTemplateInterp :: openStack) t.range
    | TokenTemplateControl =>
      recoverAfterBodyItemLoop rest (TokenTemplateControl :: openStack) t.range
    | TokenCBrace =>
      recoverAfterBodyItemLoop rest (popToOpener (oppositeBracket TokenCBrace) openStack) t.range
    | TokenCBrack =>
      recoverAfterBodyItemLoop rest (popToOpener (oppositeBracket TokenCBrack) openStack) t.range
    | TokenCParen =>
      recoverAfterBodyItemLoop rest (popToOpener (oppositeBracket TokenCParen) openStack) t.range
    | TokenCQuote =>
      recoverAfterBodyItemLoop rest (popToOpener (oppositeBracket TokenCQuote) openStack) t.range
    | TokenCHeredoc =>
      recoverAfterBodyItemLoop rest (popToOpener (oppositeBracket TokenCHeredoc) openStack) t.range
    | TokenTemplateSeqEnd =>
      recoverAfterBodyItemLoop rest (popToTemplateOpener openStack) t.range
    | _ => recoverAfterBodyItemLoop rest openStack t.range

/-- recoverAfterBodyItem (parser.go lines 555-595): set the recovery flag and
scan to the next newline outside any open bracketer (or EOF). -/
def recoverAfterBodyItemState (st : PState) : PState :=
  let res := recoverAfterBodyItemLoop st.toks [] st.last
  { toks := res.1, last := res.2, recovery := true }

/-!  The AST node types.  Body, Block and Attribute are declared in the
repository's ast files, which are not among the provided sources; their fields
are modelled from the spec (section 3) and are exactly the fields parser.go
populates. -/

/-- Modelled from the spec: the expression AST.  Attribute-value parsing is an
unimplemented stub in the source (parser.go line 150), so only the literal
variant, which the spec-modelled attribute parser produces, is needed here. -/
inductive Expression where
  | literalValue (srcRange : Range)
  deriving DecidableEq, Repr

/-- Modelled from the spec: an Attribute is a name, a name range, a value
expression and a full source range. -/
structure Attribute where
  name : String
  expr : Expression
  srcRange : Range
  nameRange : Range
  deriving DecidableEq, Repr

mutual

/-- Modelled from the spec: a Body is a mapping from attribute name to
Attribute (modelled as an association list in first-definition order; the Go
map's keys are unique by construction), an ordered block sequence, a source
range and the zero-width end range. -/
inductive Body where
  | mk (attributes : List (String × Attribute)) (blocks : List Block)
       (srcRange : Range) (endRange : Range)

/-- Modelled from the spec: a Block is a type name, ordered labels and label
ranges, an optional nested Body (absent when the block could not be parsed),
and the type-name / open-brace / close-brace ranges. -/
inductive Block where
  | mk (btype : String) (labels : List String) (body : Option Body)
       (typeRange : Range) (labelRanges : List Range)
       (openBraceRange : Range) (closeBraceRange : Range)

end

def Body.attributes : Body → List (String × Attribute)
  | .mk a _ _ _ => a

def Body.blocks : Body → List Block
  | .mk _ b _ _ => b

def Body.srcRange : Body → Range
  | .mk _ _ r _ => r

def Body.endRange : Body → Range
  | .mk _ _ _ r => r

def Block.btype : Block → String
  | .mk t _ _ _ _ _ _ => t

def Block.labels : Block → List String
  | .mk _ l _ _ _ _ _ => l

def Block.body : Block → Option Body
  | .mk _ _ b _ _ _ _ => b

def Block.typeRange : Block → Range
  | .mk _ _ _ r _ _ _ => r

def Block.labelRanges : Block → List Range
  | .mk _ _ _ _ r _ _ => r

def Block.openBraceRange : Block → Range
  | .mk _ _ _ _ _ r _ => r

def Block.closeBraceRange : Block → Range
  | .mk _ _ _ _ _ _ r => r

/-- The Node values ParseBodyItem can produce (the Go function returns the
Node interface; a nil result is modelled as `none : Option Node`). -/
inductive Node where
  | attr (a : Attribute)
  | block (b : Block)

/-!  The diagnostics parser.go constructs, one helper per construction site. -/

/-- ParseBody's "Attribute redefined" diagnostic (parser.go lines 51-59). -/
def attrRedefinedDiag (a existing : Attribute) : Diagnostic :=
  { severity := DiagSeverity.DiagError
    summary := "Attribute redefined"
    detail := "The attribute \"" ++ a.name ++ "\" was already defined at "
      ++ rangeString existing.nameRange ++ ". Each attribute may be defined only once."
    subject := some a.nameRange
    context := none }

/-- ParseBody's "Invalid attribute name" diagnostic (parser.go lines 78-83). -/
def invalidAttrNameDiag (r : Range) : Diagnostic :=
  { severity := DiagSeverity.DiagError
    summary := "Invalid attribute name"
    detail := "Attribute names must not be quoted."
    subject := some r
    context := none }

/-- The generic "Attribute or block definition required" diagnostic (parser.go
lines 85-90 and 118-123). -/
def attrOrBlockRequiredDiag (r : Range) : Diagnostic :=
  { severity := DiagSeverity.DiagError
    summary := "Attribute or block definition required"
    detail := "An attribute or block definition is required here."
    subject := some r
    context := none }

/-- ParseBodyItem's variant of the previous diagnostic, whose detail also
explains the equals-sign requirement (parser.go lines 136-143). -/
def attrOrBlockRequiredEqualsDiag (r : Range) : Diagnostic :=
  { severity := DiagSeverity.DiagError
    summary := "Attribute or block definition required"
    detail := "An attribute or block definition is required here. To define an attribute, use the equals sign \"=\" to introduce the attribute value."
    subject := some r
    context := none }

/-- finishParsingBodyBlock's "Invalid block definition" diagnostic for an
equals sign in a block header (parser.go lines 193-199). -/
def invalidBlockEqualDiag (ident tok : Token) : Diagnostic :=
  { severity := DiagSeverity.DiagError
    summary := "Invalid block definition"
    detail := "The equals sign \"=\" indicates an attribute definition, and must not be used when defining a block."
    subject := some tok.range
    context := some (rangeBetween ident.range tok.range) }

/-- finishParsingBodyBlock's "Invalid block definition" diagnostic for a
newline in a block header (parser.go lines 201-207). -/
def invalidBlockNewlineDiag (ident tok : Token) : Diagnostic :=
  { severity := DiagSeverity.DiagError
    summary := "Invalid block definition"
    detail := "A block definition must have block content delimited by \"\x7b\" and \"\x7d\", starting on the same line as the block header."
    subject := some tok.range
    context := some (rangeBetween ident.range tok.range) }

/-- finishParsingBodyBlock's "Invalid block definition" diagnostic for any
other unexpected header token (parser.go lines 210-216). -/
def invalidBlockOtherDiag (ident tok : Token) : Diagnostic :=
  { severity := DiagSeverity.DiagError
    summary := "Invalid block definition"
    detail := "Either a quoted string block label or an opening brace (\"\x7b\") is expected here."
    subject := some tok.range
    context := some (rangeBetween ident.range tok.range) }

/-- parseQuotedStringLiteral's "Invalid string literal" diagnostic when the
next token is not an opening quote (parser.go lines 258-265). -/
def quotedRequiredDiag (r : Range) : Diagnostic :=
  { severity := DiagSeverity.DiagError
    summary := "Invalid string literal"
    detail := "A quoted string is required here."
    subject := some r
    context := none }

/-- parseQuotedStringLiteral's "Invalid string literal" diagnostic for a
template sequence inside a non-interpolating string (parser.go lines 292-301);
`which` is "$" for an interpolation opener and "!" for a control opener. -/
def templateNotAllowedDiag (oQuote tok : Token) (which : String) : Diagnostic :=
  { severity := DiagSeverity.DiagError
    summary := "Invalid string literal"
    detail := "Template sequences are not allowed in this string. To include a literal \""
      ++ which ++ "\", double it (as \"" ++ which ++ which ++ "\") to escape it."
    subject := some tok.range
    context := some (rangeBetween oQuote.range tok.range) }

/-- parseQuotedStringLiteral's "Unterminated string literal" diagnostic
(parser.go lines 305-311). -/
def unterminatedDiag (oQuote tok : Token) : Diagnostic :=
  { severity := DiagSeverity.DiagError
    summary := "Unterminated string literal"
    detail := "Unable to find the closing quote mark before the end of the file."
    subject := some tok.range
    context := some (rangeBetween oQuote.range tok.range) }

/-- parseQuotedStringLiteral's defensive "Invalid string literal" diagnostic
for a token type the scanner should never produce inside a quoted string
(parser.go lines 316-322). -/
def invalidInStringDiag (oQuote tok : Token) : Diagnostic :=
  { severity := DiagSeverity.DiagError
    summary := "Invalid string literal"
    detail := "This item is not valid in a string literal."
    subject := some tok.range
    context := some (rangeBetween oQuote.range tok.range) }

/-!  parseQuotedStringLiteral (parser.go lines 253-331).  The parse functions
take an explicit fuel argument, decremented at every call, and return `none`
when the fuel runs out; every loop iteration consumes input, so any
sufficiently large fuel yields the Go function's result. -/

/-- The token loop of parseQuotedStringLiteral (parser.go lines 272-328),
accumulating the decoded text; returns the closing-quote token (the zero Token
when the loop ends at EOF or on a defensive error, as in Go). -/
def pqslLoop : Nat → Token → String → Diags → PState →
    Option (String × Token × Diags × PState)
  | 0, _, _, _, _ => none
  | fuel + 1, oQuote, acc, diags, st =>
    let r := st.read
    let tok := r.1
    let st1 := r.2
    match tok.type with
    | TokenCQuote => some (acc, tok, diags, st1)
    | TokenQuotedLit =>
      let dec := (decodeStringLit tok).getD ("", [])
      pqslLoop fuel oQuote (acc ++ dec.1) (diags ++ dec.2) st1
    | TokenTemplateControl =>
      pqslLoop fuel oQuote acc (diags ++ [templateNotAllowedDiag oQuote tok "!"])
        (recoverState TokenTemplateSeqEnd st1)
    | TokenTemplateInterp =>
      pqslLoop fuel oQuote acc (diags ++ [templateNotAllowedDiag oQuote tok "$"])
        (recoverState TokenTemplateSeqEnd st1)
    | TokenEOF => some (acc, zeroToken, diags ++ [unterminatedDiag oQuote tok], st1)
    | _ =>
      some (acc, zeroToken, diags ++ [invalidInStringDiag oQuote tok],
        recoverState TokenOQuote st1)

/-- parseQuotedStringLiteral (parser.go lines 255-331): parse a quoted string
not allowed to contain interpolations, returning the decoded text, the range
from opening through closing quote, and the diagnostics. -/
def parseQuotedStringLiteral : Nat → PState → Option (String × Range × Diags × PState)
  | 0, _ => none
  | fuel + 1, st =>
    let r := st.read
    let oQuote := r.1
    let st1 := r.2
    if oQuote.type = TokenOQuote then
      match pqslLoop fuel oQuote "" [] st1 with
      | none => none
      | some (text, cQuote, diags, st2) =>
        some (text, rangeBetween oQuote.range cQuote.range, diags, st2)
    else
      some ("", oQuote.range, [quotedRequiredDiag oQuote.range], st1)

/-- finishParsingBodyAttribute (parser.go lines 149-151): the source function
is an unimplemented stub that unconditionally panics ("attribute parsing not
yet implemented") without reading a token or building a node.  As with
decodeStringLit's panic on an unexpected token type, the panic is modelled as
`none`: a computation that never returns normally, at any fuel. -/
def finishParsingBodyAttribute : Nat → Token → PState →
    Option (Option Node × Diags × PState) :=
  fun _ _ _ => none

mutual

/-- ParseBody (parser.go lines 22-111): parse attribute and block items until
the terminator token type `fin`, collecting attributes (first definition wins)
and blocks in source order. -/
def ParseBody : Nat → TokenType → PState → Option (Body × Diags × PState)
  | 0, _, _ => none
  | fuel + 1, fin, st => parseBodyLoop fuel fin st.last [] [] [] st

/-- The item loop of ParseBody (parser.go lines 30-98) with the accumulated
attributes, blocks and diagnostics. -/
def parseBodyLoop : Nat → TokenType → Range → List (String × Attribute) →
    List Block → Diags → PState → Option (Body × Diags × PState)
  | 0, _, _, _, _, _, _ => none
  | fuel + 1, fin, startRange, attrs, blocks, diags, st =>
    let next := st.peek
    if next.type = fin then
      let endRange := next.range
      some (Body.mk attrs blocks (rangeBetween startRange endRange)
        { filename := endRange.filename, start := endRange.stop, stop := endRange.stop },
        diags, (st.read).2)
    else
      match next.type with
      | TokenNewline => parseBodyLoop fuel fin startRange attrs blocks diags (st.read).2
      | TokenIdent =>
        match ParseBodyItem fuel st with
        | none => none
        | some (item, itemDiags, st1) =>
          let diags1 := diags ++ itemDiags
          match item with
          | some (Node.block b) =>
            parseBodyLoop fuel fin startRange attrs (blocks ++ [b]) diags1 st1
          | some (Node.attr a) =>
            match attrs.lookup a.name with
            | some existing =>
              parseBodyLoop fuel fin startRange attrs blocks
                (diags1 ++ [attrRedefinedDiag a existing]) st1
            | none =>
              parseBodyLoop fuel fin startRange (attrs ++ [(a.name, a)]) blocks diags1 st1
          | none => parseBodyLoop fuel fin startRange attrs blocks diags1 st1
      | _ =>
        let r := st.read
        let bad := r.1
        let st1 := r.2
        let diags1 :=
          if st.recovery then diags
          else if bad.type = TokenOQuote then diags ++ [invalidAttrNameDiag bad.range]
          else diags ++ [attrOrBlockRequiredDiag bad.range]
        let endRange := st1.last
        some (Body.mk attrs blocks (rangeBetween startRange endRange)
          { filename := endRange.filename, start := endRange.stop, stop := endRange.stop },
          diags1, recoverState fin st1)

/-- ParseBodyItem (parser.go lines 113-147): consume the leading identifier,
then dispatch on the next token to attribute or block parsing. -/
def ParseBodyItem : Nat → PState → Option (Option Node × Diags × PState)
  | 0, _ => none
  | fuel + 1, st =>
    let r := st.read
    let ident := r.1
    let st1 := r.2
    if ident.type = TokenIdent then
      match st1.peek.type with
      | TokenEqual => finishParsingBodyAttribute fuel ident st1
      | TokenOQuote => finishParsingBodyBlock fuel ident st1
      | TokenOBrace => finishParsingBodyBlock fuel ident st1
      | _ =>
        some (none, [attrOrBlockRequiredEqualsDiag ident.range],
          recoverAfterBodyItemState st1)
    else
      some (none, [attrOrBlockRequiredDiag ident.range], recoverAfterBodyItemState st1)

/-- finishParsingBodyBlock (parser.go lines 153-251). -/
def finishParsingBodyBlock : Nat → Token → PState → Option (Option Node × Diags × PState)
  | 0, _, _ => none
  | fuel + 1, ident, st =>
    finishBlockLoop fuel ident (String.mk ident.bytes) [] [] [] st

/-- The label loop of finishParsingBodyBlock (parser.go lines 161-233) with
the accumulated labels, label ranges and diagnostics.  Every error branch
invokes body-item recovery and returns a partial Block with an absent body and
the type-name range standing in for both brace ranges. -/
def finishBlockLoop : Nat → Token → String → List String → List Range → Diags →
    PState → Option (Option Node × Diags × PState)
  | 0, _, _, _, _, _, _ => none
  | fuel + 1, ident, blockType, labels, labelRanges, diags, st =>
    let tok := st.peek
    match tok.type with
    | TokenOBrace =>
      let r := st.read
      let oBrace := r.1
      let st1 := r.2
      match ParseBody fuel TokenCBrace st1 with
      | none => none
      | some (body, bodyDiags, st2) =>
        let cBraceRange := st2.last
        some (some (Node.block (Block.mk blockType labels (some body) ident.range
          labelRanges oBrace.range cBraceRange)), diags ++ bodyDiags, st2)
    | TokenOQuote =>
      match parseQuotedStringLiteral fuel st with
      | none => none
      | some (label, labelRange, labelDiags, st1) =>
        let diags1 := diags ++ labelDiags
        let labels1 := labels ++ [label]
        let labelRanges1 := labelRanges ++ [labelRange]
        if hasErrors labelDiags then
          some (some (Node.block (Block.mk blockType labels1 none ident.range
            labelRanges1 ident.range ident.range)), diags1,
            recoverAfterBodyItemState st1)
        else finishBlockLoop fuel ident blockType labels1 labelRanges1 diags1 st1
    | _ =>
      let diags1 := diags ++
        (match tok.type with
         | TokenEqual => [invalidBlockEqualDiag ident tok]
         | TokenNewline => [invalidBlockNewlineDiag ident tok]
         | _ => if st.recovery then [] else [invalidBlockOtherDiag ident tok])
      some (some (Node.block (Block.mk blockType labels none ident.range
        labelRanges ident.range ident.range)), diags1, recoverAfterBodyItemState st)

end

/-!  Concrete token streams for the worked examples.  All ranges lie on line 1
of a file "t"; `rng a b` is the range from column/byte a to column/byte b. -/

/-- Range on line 1 of file "t" from column/byte a to column/byte b. -/
def rng (a b : Nat) : Range :=
  { filename := "t", start := ⟨1, a, a⟩, stop := ⟨1, b, b⟩ }

/-- Token constructor for the worked examples. -/
def tk (ty : TokenType) (s : String) (a b : Nat) : Token :=
  { type := ty, bytes := s.data, range := rng a b }

/-- Initial parser state over a token stream (the peeker's PrevRange before
anything is read is the next token's range). -/
def mkState (ts : List Token) : PState :=
  { toks := ts, last := (ts.headD zeroToken).range, recovery := false }

/-- Token stream of the body text `a = 1` newline `a = 2` newline, ended by
EOF: the duplicate-attribute example. -/
def c3Stream : List Token :=
  [tk TokenIdent "a" 1 2, tk TokenEqual "=" 3 4, tk TokenNumberLit "1" 5 6,
   tk TokenNewline "\n" 6 7,
   tk TokenIdent "a" 8 9, tk TokenEqual "=" 10 11, tk TokenNumberLit "2" 12 13,
   tk TokenNewline "\n" 13 14,
   tk TokenEOF "" 14 14]

/-- Token stream of a body whose first block header has a label containing a
template interpolation (`b "<interp x>" ... `) followed by a well-formed block
`c`, ended by EOF. -/
def c6Stream : List Token :=
  [tk TokenIdent "b" 1 2, tk TokenOQuote "\"" 3 4, tk TokenTemplateInterp "$\x7b" 4 6,
   tk TokenIdent "x" 6 7, tk TokenTemplateSeqEnd "\x7d" 7 8, tk TokenCQuote "\"" 8 9,
   tk TokenOBrace "\x7b" 10 11, tk TokenCBrace "\x7d" 11 12, tk TokenNewline "\n" 12 13,
   tk TokenIdent "c" 14 15, tk TokenOBrace "\x7b" 16 17, tk TokenCBrace "\x7d" 17 18,
   tk TokenNewline "\n" 18 19, tk TokenEOF "" 19 19]

mutual

/-- All Block values reachable inside a Body, nested bodies included. -/
def allBlocksBody : Body → List Block
  | .mk _ bs _ _ => allBlocksList bs

/-- All Block values reachable from a list of blocks. -/
def allBlocksList : List Block → List Block
  | [] => []
  | b :: rest => allBlocksBlock b ++ allBlocksList rest

/-- A Block together with all Block values reachable inside its body. -/
def allBlocksBlock : Block → List Block
  | .mk t ls bo tr lr obr cbr =>
    Block.mk t ls bo tr lr obr cbr ::
      (match bo with
       | some body => allBlocksBody body
       | none => [])

end

/-- The C9 invariant: a Block's labels and label ranges have equal length. -/
def okBlock (b : Block) : Prop :=
  b.labels.length = b.labelRanges.length

/-- Token stream of the single labeled block `b "x" \x7b\x7d`, ended by EOF. -/
def c9Stream : List Token :=
  [tk TokenIdent "b" 1 2, tk TokenOQuote "\"" 3 4, tk TokenQuotedLit "x" 4 5,
   tk TokenCQuote "\"" 5 6, tk TokenOBrace "\x7b" 7 8, tk TokenCBrace "\x7d" 8 9,
   tk TokenEOF "" 9 9]

/-- The Block that parsing c9Stream produces. -/
def c9Block : Block :=
  Block.mk "b" ["x"] (some (Body.mk [] [] (rng 7 9) (rng 9 9))) (rng 1 2) [rng 3 6]
    (rng 7 8) (rng 8 9)

/-- State facing finishParsingBodyBlock after reading a block type name, whose
next token is an equals sign: a block-header error case. -/
def c4ErrState : PState :=
  { toks := [tk TokenEqual "=" 3 4, tk TokenNewline "\n" 5 6, tk TokenEOF "" 6 6],
    last := rng 1 2, recovery := false }

/-!  A generator of well-formed body token streams, used to state the
round-trip property (spec section 8): an abstract description of a body — a
list of block items, blocks carrying nested item lists — is turned into the
token stream the scanner would produce for it, and the parse of that stream
is compared against the description.  All generated tokens carry the
placeholder range `rng 0 0`; token ranges never influence parsing
decisions. -/

/-- An abstract body item: a block with a type name, quoted labels and a
nested body.  There is no attribute item: finishParsingBodyAttribute panics,
so no stream containing an attribute parses (see the C1/C3 theorems), and the
round-trip generator covers exactly the bodies the program can parse. -/
inductive GItem where
  | gblock (btype : String) (labels : List String) (items : List GItem)

/-- A character that the escape decoder copies through unchanged: not a
backslash, template marker or line-ending byte. -/
def plainChar (c : Char) : Prop :=
  c ≠ '\\' ∧ c ≠ '$' ∧ c ≠ '!' ∧ c ≠ '\r' ∧ c ≠ '\n'

/-- The three tokens of one quoted block label. -/
def genLabelToks (l : String) : List Token :=
  [tk TokenOQuote "\"" 0 0, tk TokenQuotedLit l 0 0, tk TokenCQuote "\"" 0 0]

/-- Tokens of a label list. -/
def genLabelsToks : List String → List Token
  | [] => []
  | l :: ls => genLabelToks l ++ genLabelsToks ls

mutual

/-- The token stream of one body item: type name, quoted labels and a braced
nested body. -/
def genItemToks : GItem → List Token
  | .gblock btype labels items =>
    tk TokenIdent btype 0 0 :: (genLabelsToks labels ++ (tk TokenOBrace "\x7b" 0 0 ::
      (genItemsToks items ++ [tk TokenCBrace "\x7d" 0 0])))

/-- The token stream of an item list. -/
def genItemsToks : List GItem → List Token
  | [] => []
  | it :: rest => genItemToks it ++ genItemsToks rest

end

/-- The block list a generated item list parses to, in source order.  Every
parsed body carries an empty attribute map, since only blocks are
generated. -/
def genBlocksList : List GItem → List Block
  | [] => []
  | .gblock btype labels inner :: rest =>
    Block.mk btype labels
        (some (Body.mk [] (genBlocksList inner) (rng 0 0) (rng 0 0)))
        (rng 0 0) (labels.map fun _ => rng 0 0) (rng 0 0) (rng 0 0) ::
      genBlocksList rest

/-- Type names of the blocks of an item list, in order. -/
def blockTypes : List GItem → List String
  | [] => []
  | .gblock btype _ _ :: rest => btype :: blockTypes rest

/-- Well-formedness of a generated description: every block label consists of
plain characters, recursively. -/
def wfItems : List GItem → Prop
  | [] => True
  | .gblock _ labels inner :: rest =>
    (∀ l ∈ labels, ∀ c ∈ l.data, plainChar c) ∧ wfItems inner ∧ wfItems rest

/-- Item list describing the body `srv "web" \x7b x \x7b\x7d \x7d`,
`b \x7b\x7d`: two top-level blocks, the first labelled and containing a nested
block. -/
def c1Items : List GItem :=
  [GItem.gblock "srv" ["web"] [GItem.gblock "x" [] []],
   GItem.gblock "b" [] []]

/-- Token stream of the smallest well-formed attribute-bearing body
`a = 1` newline: N = 1 attributes, M = 0 blocks, no syntax errors. -/
def c1AttrStream : List Token :=
  [tk TokenIdent "a" 1 2, tk TokenEqual "=" 3 4, tk TokenNumberLit "1" 5 6,
   tk TokenNewline "\n" 6 7, tk TokenEOF "" 7 7]

/-- Item list of n nested empty blocks `a\x7ba\x7b...\x7d\x7d`. -/
def nestItems : Nat → List GItem
  | 0 => []
  | n + 1 => [GItem.gblock "a" [] (nestItems n)]

mutual

/-- Fuel sufficient to parse one generated item (every parse function call
consumes one unit). -/
def itemFuel : GItem → Nat
  | .gblock _ labels items => 8 + labels.length + itemsFuel items

/-- Fuel sufficient to parse a generated item list plus its terminator. -/
def itemsFuel : List GItem → Nat
  | [] => 2
  | it :: rest => itemFuel it + itemsFuel rest

end

/-!  Theorems. -/

theorem recoverLoop_suffix (start fin : TokenType) :
    ∀ (toks : List Token) (nest : Nat) (last : Range),
      (recoverLoop start fin nest toks last).1 <:+ toks := by
  intro toks
  induction toks with
  | nil => intro nest last; exact List.suffix_rfl
  | cons t rest ih =>
    intro nest last
    rw [recoverLoop]
    split_ifs <;>
      first
        | exact List.suffix_rfl
        | exact List.suffix_cons t rest
        | exact (ih _ _).trans (List.suffix_cons t rest)

theorem recoverAfterBodyItemLoop_suffix :
    ∀ (toks : List Token) (openStack : List TokenType) (last : Range),
      (recoverAfterBodyItemLoop toks openStack last).1 <:+ toks := by
  intro toks
  induction toks with
  | nil => intro openStack last; exact List.suffix_rfl
  | cons t rest ih =>
    intro openStack last
    have step : ∀ (os : List TokenType) (r : Range),
        (recoverAfterBodyItemLoop rest os r).1 <:+ t :: rest :=
      fun os r => (ih os r).trans (List.suffix_cons t rest)
    cases h : t.type <;>
      simp only [recoverAfterBodyItemLoop, h] <;>
      first
        | exact step _ _
        | exact List.suffix_rfl
        | exact List.suffix_cons t rest
        | (split <;>
            first
              | exact List.suffix_rfl
              | exact List.suffix_cons t rest
              | exact step _ _)

/-- C2: both recovery strategies are total functions of the remaining token
stream (they are defined by well-founded recursion, so they terminate on every
finite input, however malformed), and each leaves a suffix of the input
stream, i.e. consumes at most the number of tokens remaining. -/
theorem c2_recovery_terminates_bounded (fin : TokenType) (st : PState) :
    (recoverState fin st).toks <:+ st.toks ∧
    (recoverState fin st).toks.length ≤ st.toks.length ∧
    (recoverAfterBodyItemState st).toks <:+ st.toks ∧
    (recoverAfterBodyItemState st).toks.length ≤ st.toks.length := by
  have h1 : (recoverState fin st).toks <:+ st.toks :=
    recoverLoop_suffix (oppositeBracket fin) fin st.toks 0 st.last
  have h2 : (recoverAfterBodyItemState st).toks <:+ st.toks :=
    recoverAfterBodyItemLoop_suffix st.toks [] st.last
  exact ⟨h1, h1.length_le, h2, h2.length_le⟩

/-- C5: in quoted mode the escape decoder maps backslash-n to a newline with
no diagnostics, an unrecognized escape to the bare character with exactly one
"Invalid escape sequence" diagnostic, a doubled template marker before a brace
to the single marker with no diagnostics, and a lone marker followed by an
ordinary character to both characters literally with no diagnostics. -/
theorem c5_decode_table :
    decodeStringLit
      { type := TokenType.TokenQuotedLit, bytes := ['a', '\\', 'n', 'b'],
        range := { filename := "f", start := ⟨1, 1, 0⟩, stop := ⟨1, 5, 4⟩ } } =
      some ("a\nb", []) ∧
    decodeStringLit
      { type := TokenType.TokenQuotedLit, bytes := ['\\', 'q'],
        range := { filename := "f", start := ⟨1, 1, 0⟩, stop := ⟨1, 3, 2⟩ } } =
      some ("q",
        [{ severity := DiagSeverity.DiagError,
           summary := "Invalid escape sequence",
           detail := "The characters \"\\q\" do not form a recognized escape sequence.",
           subject := some { filename := "f", start := ⟨1, 1, 0⟩, stop := ⟨1, 3, 2⟩ },
           context := none }]) ∧
    decodeStringLit
      { type := TokenType.TokenQuotedLit,
        bytes := ['$', '$', '\x7b', 'v', 'a', 'l', '\x7d'],
        range := { filename := "f", start := ⟨1, 1, 0⟩, stop := ⟨1, 8, 7⟩ } } =
      some ("$\x7bval\x7d", []) ∧
    decodeStringLit
      { type := TokenType.TokenQuotedLit, bytes := ['$', 'x'],
        range := { filename := "f", start := ⟨1, 3, 2⟩, stop := ⟨1, 3, 2⟩ } } =
      some ("$x", []) := by
  exact ⟨rfl, rfl, rfl, rfl⟩

theorem scan_cons_of_not_crlf (c : Char) (rest : List Char)
    (h : ∀ rest2, c = '\r' → rest = '\n' :: rest2 → False) :
    scanGraphemeClusters (c :: rest) = [c] :: scanGraphemeClusters rest := by
  rw [scanGraphemeClusters.eq_def]
  split
  · next heq => exact absurd heq (by simp)
  · next rest2 heq =>
    exfalso
    rw [List.cons.injEq] at heq
    exact h rest2 heq.1 heq.2
  · next c2 rest2 _ heq =>
    rw [List.cons.injEq] at heq
    rw [← heq.1, ← heq.2]

theorem scanGraphemeClusters_append_two (m : Char) (hm : ¬m = '\n') :
    ∀ bs : List Char,
      scanGraphemeClusters (bs ++ [m, m]) = scanGraphemeClusters bs ++ [[m], [m]] := by
  intro bs
  induction bs using scanGraphemeClusters.induct with
  | case1 =>
    rw [List.nil_append]
    rw [scan_cons_of_not_crlf m [m]
      (by intro r2 _ habs; rw [List.cons.injEq] at habs; exact hm habs.1)]
    rw [scan_cons_of_not_crlf m [] (by intro r2 _ habs; exact absurd habs (by simp))]
    rfl
  | case2 rest ih => simpa [scanGraphemeClusters] using ih
  | case3 c rest hcr ih =>
    have hside : ∀ rest2, c = '\r' → rest ++ [m, m] = '\n' :: rest2 → False := by
      intro rest2 hc habs
      cases rest with
      | nil =>
        rw [List.nil_append, List.cons.injEq] at habs
        exact hm habs.1
      | cons r0 rtail =>
        rw [List.cons_append, List.cons.injEq] at habs
        exact hcr rtail hc (by rw [habs.1])
    rw [List.cons_append, scan_cons_of_not_crlf c (rest ++ [m, m]) hside, ih,
      scan_cons_of_not_crlf c rest hcr]
    rfl

/-- C7: when the raw bytes of a literal end while a marker escape is pending
in the escape buffer — e.g. a trailing doubled `$` — the decoder's loop ends
without flushing the buffer, so the buffered characters are dropped from the
output and no diagnostic is produced for them. -/
theorem c7_trailing_marker_pair_dropped (quoted : Bool) (fname : String) (p0 : Pos)
    (bs : List Char) (m : Char) (hm : m = '$' ∨ m = '!')
    (hesc : (decodeFold quoted fname p0 (scanGraphemeClusters bs)).esc = []) :
    decodeStringLitCore quoted fname p0 (bs ++ [m, m]) =
      decodeStringLitCore quoted fname p0 bs := by
  have hnl : ¬m = '\n' := by rcases hm with h | h <;> subst h <;> decide
  have hscan := scanGraphemeClusters_append_two m hnl bs
  have two : ∀ S : DecSt, S.esc = [] →
      (decodeStep quoted fname (decodeStep quoted fname S [m]) [m]).ret = S.ret ∧
      (decodeStep quoted fname (decodeStep quoted fname S [m]) [m]).diags = S.diags := by
    intro S h
    obtain ⟨np, esc, ret, dg⟩ := S
    simp only at h
    subst h
    rcases hm with h' | h' <;> subst h' <;> simp [decodeStep]
  have hfold : decodeFold quoted fname p0 (scanGraphemeClusters (bs ++ [m, m])) =
      decodeStep quoted fname
        (decodeStep quoted fname (decodeFold quoted fname p0 (scanGraphemeClusters bs)) [m])
        [m] := by
    rw [hscan]
    unfold decodeFold
    rw [List.foldl_append]
    rfl
  obtain ⟨h1, h2⟩ := two _ hesc
  unfold decodeStringLitCore
  rw [hfold]
  simp only [h1, h2]

/-- C7 witness: decoding the quoted-mode bytes `ab$$` yields `ab` with no
diagnostics; the trailing doubled marker is dropped. -/
theorem c7_trailing_marker_pair_dropped_witness :
    (decodeFold true "f" ⟨1, 1, 0⟩ (scanGraphemeClusters ['a', 'b'])).esc = [] ∧
    decodeStringLitCore true "f" ⟨1, 1, 0⟩ (['a', 'b'] ++ ['$', '$']) =
      decodeStringLitCore true "f" ⟨1, 1, 0⟩ ['a', 'b'] ∧
    decodeStringLitCore true "f" ⟨1, 1, 0⟩ ['a', 'b', '$', '$'] = ("ab", []) :=
  ⟨rfl,
   c7_trailing_marker_pair_dropped true "f" ⟨1, 1, 0⟩ ['a', 'b'] '$' (Or.inl rfl) rfl,
   rfl⟩

/-- C10: decodeStringLit panics (modelled as `none`) exactly when its token is
neither quoted-literal text nor raw string-literal text; on the
quoted-literal-text tokens that parseQuotedStringLiteral's literal branch
passes it, it always succeeds (the panic is unreachable from that call site),
returning the quoted-mode decode of the token's bytes. -/
theorem c10_decode_panic_unreachable :
    (∀ tok : Token, tok.type ≠ TokenType.TokenQuotedLit →
      tok.type ≠ TokenType.TokenStringLit → decodeStringLit tok = none) ∧
    (∀ tok : Token, tok.type = TokenType.TokenQuotedLit →
      decodeStringLit tok =
        some (decodeStringLitCore true tok.range.filename tok.range.start tok.bytes)) := by
  constructor
  · intro tok h1 h2
    unfold decodeStringLit
    cases h : tok.type <;> first | rfl | exact absurd h h1 | exact absurd h h2
  · intro tok h
    unfold decodeStringLit
    rw [h]

/-- C10 witness: a newline-typed token makes decodeStringLit panic (`none`),
while a quoted-literal token always decodes. -/
theorem c10_decode_panic_unreachable_witness :
    decodeStringLit (tk TokenType.TokenNewline "\n" 1 2) = none ∧
    decodeStringLit (tk TokenType.TokenQuotedLit "z" 1 2) = some ("z", []) := by
  constructor
  · exact c10_decode_panic_unreachable.1 (tk TokenType.TokenNewline "\n" 1 2)
      (by decide) (by decide)
  · rw [c10_decode_panic_unreachable.2 (tk TokenType.TokenQuotedLit "z" 1 2) rfl]
    rfl

theorem recoverLoop_skip_to_seqEnd (e : Token) (he : e.type = TokenTemplateSeqEnd)
    (tail : List Token) :
    ∀ (mid : List Token),
      (∀ x ∈ mid, x.type ≠ TokenTemplateInterp ∧ x.type ≠ TokenTemplateControl ∧
        x.type ≠ TokenTemplateSeqEnd ∧ x.type ≠ TokenEOF) →
      ∀ last, recoverLoop TokenTemplateInterp TokenTemplateSeqEnd 0 (mid ++ e :: tail) last =
        (tail, e.range) := by
  intro mid
  induction mid with
  | nil =>
    intro _ last
    rw [List.nil_append, recoverLoop]
    have h1 : normTy TokenTemplateSeqEnd e = TokenTemplateSeqEnd := by
      unfold normTy
      rw [he]
      decide
    rw [h1]
    simp [he]
  | cons x xs ih =>
    intro hmid last
    obtain ⟨hx1, hx2, hx3, hx4⟩ := hmid x (List.mem_cons_self x xs)
    have hnorm : normTy TokenTemplateSeqEnd x = x.type := by
      unfold normTy
      simp [hx2]
    rw [List.cons_append, recoverLoop, hnorm]
    rw [if_neg hx1, if_neg hx3, if_neg hx4]
    exact ih (fun y hy => hmid y (List.mem_cons_of_mem x hy)) x.range

/-- C6: when parseQuotedStringLiteral reads a template-interpolation-open or
template-control-open token, it appends exactly one diagnostic — summary
"Invalid string literal", detail instructing to double the marker ("$" or
"!") — and recovers by skipping to the matching template-sequence-end, after
which the literal parse completes at the next closing quote, leaving the
stream positioned after it so parsing continues without cascading errors. -/
theorem c6_template_sequence_in_literal (fuel : Nat) (oq t e cq : Token)
    (mid rest : List Token) (last : Range) (rec : Bool)
    (hoq : oq.type = TokenType.TokenOQuote)
    (ht : t.type = TokenType.TokenTemplateInterp ∨ t.type = TokenType.TokenTemplateControl)
    (hmid : ∀ x ∈ mid, x.type ≠ TokenType.TokenTemplateInterp ∧
      x.type ≠ TokenType.TokenTemplateControl ∧
      x.type ≠ TokenType.TokenTemplateSeqEnd ∧ x.type ≠ TokenType.TokenEOF)
    (he : e.type = TokenType.TokenTemplateSeqEnd)
    (hcq : cq.type = TokenType.TokenCQuote) :
    parseQuotedStringLiteral (fuel + 3)
      { toks := oq :: t :: (mid ++ e :: cq :: rest), last := last, recovery := rec } =
      some ("", rangeBetween oq.range cq.range,
        [templateNotAllowedDiag oq t
          (if t.type = TokenType.TokenTemplateControl then "!" else "$")],
        { toks := rest, last := cq.range, recovery := true }) := by
  have hoqe : oq.type ≠ TokenType.TokenEOF := by rw [hoq]; decide
  have hskip := recoverLoop_skip_to_seqEnd e he (cq :: rest) mid hmid t.range
  have hread : PState.read
      { toks := oq :: t :: (mid ++ e :: cq :: rest), last := last, recovery := rec } =
      (oq, { toks := t :: (mid ++ e :: cq :: rest), last := oq.range, recovery := rec }) := by
    unfold PState.read
    simp [hoqe]
  rcases ht with ht' | ht' <;>
  · show parseQuotedStringLiteral (fuel + 2 + 1) _ = _
    rw [parseQuotedStringLiteral, hread]
    simp only [hoq, if_pos rfl, reduceIte]
    have hteof : t.type ≠ TokenType.TokenEOF := by rw [ht']; decide
    have htread : PState.read
        { toks := t :: (mid ++ e :: cq :: rest), last := oq.range, recovery := rec } =
        (t, { toks := mid ++ e :: cq :: rest, last := t.range, recovery := rec }) := by
      unfold PState.read
      simp [hteof]
    show (match pqslLoop (fuel + 1 + 1) oq "" [] _ with
      | none => none
      | some (text, cQuote, diags, st2) =>
        some (text, rangeBetween oq.range cQuote.range, diags, st2)) = _
    rw [pqslLoop, htread]
    simp only [ht']
    have hrecov : recoverState TokenType.TokenTemplateSeqEnd
        { toks := mid ++ e :: cq :: rest, last := t.range, recovery := rec } =
        { toks := cq :: rest, last := e.range, recovery := true } := by
      unfold recoverState
      dsimp only [oppositeBracket]
      rw [hskip]
    rw [hrecov]
    have hcqe : cq.type ≠ TokenType.TokenEOF := by rw [hcq]; decide
    have hcqread : PState.read { toks := cq :: rest, last := e.range, recovery := true } =
        (cq, { toks := rest, last := cq.range, recovery := true }) := by
      unfold PState.read
      simp [hcqe]
    rw [pqslLoop, hcqread]
    simp [hcq, ht']

/-- C6 witness: the literal parse of `"` interp `x` seq-end `"` yields exactly
the single doubling diagnostic and stops after the closing quote; and, end to
end, the c6Stream body parse reports only that diagnostic while still
returning the partial block `b` (absent body) and the complete block `c`. -/
theorem c6_template_sequence_in_literal_witness :
    parseQuotedStringLiteral 5
      { toks := [tk TokenType.TokenOQuote "\"" 3 4, tk TokenType.TokenTemplateInterp "$\x7b" 4 6,
          tk TokenType.TokenIdent "x" 6 7, tk TokenType.TokenTemplateSeqEnd "\x7d" 7 8,
          tk TokenType.TokenCQuote "\"" 8 9],
        last := rng 3 4, recovery := false } =
      some ("", rangeBetween (rng 3 4) (rng 8 9),
        [templateNotAllowedDiag (tk TokenType.TokenOQuote "\"" 3 4)
          (tk TokenType.TokenTemplateInterp "$\x7b" 4 6)
          (if (tk TokenType.TokenTemplateInterp "$\x7b" 4 6).type =
              TokenType.TokenTemplateControl then "!" else "$")],
        { toks := [], last := rng 8 9, recovery := true }) ∧
    ((ParseBody 30 TokenType.TokenEOF (mkState c6Stream)).map fun r =>
        (r.2.1.map fun d => d.summary, r.1.blocks.map fun b => (b.btype, b.body.isSome))) =
      some (["Invalid string literal"], [("b", false), ("c", true)]) := by
  constructor
  · exact c6_template_sequence_in_literal 2 (tk TokenType.TokenOQuote "\"" 3 4)
      (tk TokenType.TokenTemplateInterp "$\x7b" 4 6) (tk TokenType.TokenTemplateSeqEnd "\x7d" 7 8)
      (tk TokenType.TokenCQuote "\"" 8 9) [tk TokenType.TokenIdent "x" 6 7] [] (rng 3 4) false
      rfl (Or.inl rfl) (by decide) rfl rfl
  · decide

theorem finishBlockLoop_partial :
    ∀ (fuel : Nat) (ident : Token) (btype : String) (labels : List String)
      (lranges : List Range) (ds0 : Diags) (st : PState) (b : Block) (ds : Diags)
      (st' : PState),
      finishBlockLoop fuel ident btype labels lranges ds0 st =
        some (some (Node.block b), ds, st') →
      b.body = none →
      b.openBraceRange = ident.range ∧ b.closeBraceRange = ident.range ∧
        b.typeRange = ident.range ∧ st'.recovery = true := by
  intro fuel
  induction fuel with
  | zero =>
    intro ident btype labels lranges ds0 st b ds st' h _
    rw [finishBlockLoop] at h
    exact absurd h (by simp)
  | succ f ih =>
    intro ident btype labels lranges ds0 st b ds st' h hbody
    rw [finishBlockLoop] at h
    split at h
    · -- opening brace: the returned block owns a body, contradicting hbody
      dsimp only at h
      split at h
      · exact absurd h (by simp)
      · simp only [Option.some.injEq, Prod.mk.injEq, Node.block.injEq] at h
        rw [← h.1] at hbody
        simp [Block.body] at hbody
    · -- quoted label
      dsimp only at h
      split at h
      · exact absurd h (by simp)
      · next label labelRange labelDiags st1 _ =>
        try dsimp only at h
        split at h
        · simp only [Option.some.injEq, Prod.mk.injEq, Node.block.injEq] at h
          refine ⟨?_, ?_, ?_, ?_⟩ <;>
            first
              | (rw [← h.1]; rfl)
              | (rw [← h.2.2]; rfl)
        · exact ih ident btype _ _ _ st1 b ds st' h hbody
    · -- equals sign, newline or other unexpected header token
      try dsimp only at h
      simp only [Option.some.injEq, Prod.mk.injEq, Node.block.injEq] at h
      refine ⟨?_, ?_, ?_, ?_⟩ <;>
        first
          | (rw [← h.1]; rfl)
          | (rw [← h.2.2]; rfl)

/-- C4: whenever finishParsingBodyBlock returns a partial Block — one whose
Body is absent (none), which is exactly what every header-error branch
produces — the open-brace and close-brace ranges of that Block are both the
block's type-name range, and the returned parser state has been through
body-item recovery (its recovery flag is set). -/
theorem c4_partial_block_on_header_error (fuel : Nat) (ident : Token) (st : PState)
    (b : Block) (ds : Diags) (st' : PState)
    (h : finishParsingBodyBlock fuel ident st = some (some (Node.block b), ds, st'))
    (hbody : b.body = none) :
    b.openBraceRange = ident.range ∧ b.closeBraceRange = ident.range ∧
      b.typeRange = ident.range ∧ st'.recovery = true := by
  match fuel, h with
  | 0, h =>
    rw [finishParsingBodyBlock] at h
    exact absurd h (by simp)
  | f + 1, h =>
    rw [finishParsingBodyBlock] at h
    exact finishBlockLoop_partial f ident (String.mk ident.bytes) [] [] [] st b ds st' h hbody

/-- C4 witness: a block header `a` followed by an equals sign takes the error
branch; the returned Block has an absent body, both brace ranges equal to the
type-name range, and the state has the recovery flag set. -/
theorem c4_partial_block_on_header_error_witness :
    (Block.mk "a" [] none (rng 1 2) [] (rng 1 2) (rng 1 2)).openBraceRange =
      (tk TokenType.TokenIdent "a" 1 2).range ∧
    (Block.mk "a" [] none (rng 1 2) [] (rng 1 2) (rng 1 2)).closeBraceRange =
      (tk TokenType.TokenIdent "a" 1 2).range ∧
    (Block.mk "a" [] none (rng 1 2) [] (rng 1 2) (rng 1 2)).typeRange =
      (tk TokenType.TokenIdent "a" 1 2).range ∧
    PState.recovery
      { toks := [tk TokenType.TokenEOF "" 6 6], last := rng 5 6, recovery := true } = true :=
  c4_partial_block_on_header_error 10 (tk TokenType.TokenIdent "a" 1 2) c4ErrState
    (Block.mk "a" [] none (rng 1 2) [] (rng 1 2) (rng 1 2))
    [invalidBlockEqualDiag (tk TokenType.TokenIdent "a" 1 2) (tk TokenType.TokenEqual "=" 3 4)]
    { toks := [tk TokenType.TokenEOF "" 6 6], last := rng 5 6, recovery := true }
    rfl rfl

theorem allBlocksList_append (xs ys : List Block) :
    allBlocksList (xs ++ ys) = allBlocksList xs ++ allBlocksList ys := by
  induction xs with
  | nil => simp [allBlocksList]
  | cons b rest ih => simp [allBlocksList, ih]

theorem finishParsingBodyAttribute_no_block (fuel : Nat) (ident : Token) (st : PState)
    (item : Option Node) (ds : Diags) (st' : PState)
    (h : finishParsingBodyAttribute fuel ident st = some (item, ds, st')) :
    ∀ b : Block, item ≠ some (Node.block b) := by
  intro b
  rw [finishParsingBodyAttribute] at h
  exact absurd h (by simp)

theorem label_length_invariant : ∀ fuel : Nat,
    (∀ (fin : TokenType) (st : PState) (body : Body) (ds : Diags) (st' : PState),
       ParseBody fuel fin st = some (body, ds, st') →
       ∀ b ∈ allBlocksBody body, okBlock b) ∧
    (∀ (fin : TokenType) (sr : Range) (attrs : List (String × Attribute))
       (blocks : List Block) (ds0 : Diags) (st : PState) (body : Body) (ds : Diags)
       (st' : PState),
       parseBodyLoop fuel fin sr attrs blocks ds0 st = some (body, ds, st') →
       (∀ b ∈ allBlocksList blocks, okBlock b) →
       ∀ b ∈ allBlocksBody body, okBlock b) ∧
    (∀ (st : PState) (item : Option Node) (ds : Diags) (st' : PState),
       ParseBodyItem fuel st = some (item, ds, st') →
       ∀ b : Block, item = some (Node.block b) → ∀ x ∈ allBlocksBlock b, okBlock x) ∧
    (∀ (ident : Token) (st : PState) (item : Option Node) (ds : Diags) (st' : PState),
       finishParsingBodyBlock fuel ident st = some (item, ds, st') →
       ∀ b : Block, item = some (Node.block b) → ∀ x ∈ allBlocksBlock b, okBlock x) ∧
    (∀ (ident : Token) (btype : String) (labels : List String) (lranges : List Range)
       (ds0 : Diags) (st : PState) (item : Option Node) (ds : Diags) (st' : PState),
       finishBlockLoop fuel ident btype labels lranges ds0 st = some (item, ds, st') →
       labels.length = lranges.length →
       ∀ b : Block, item = some (Node.block b) → ∀ x ∈ allBlocksBlock b, okBlock x) := by
  intro fuel
  induction fuel with
  | zero =>
    refine ⟨?_, ?_, ?_, ?_, ?_⟩
    · intro fin st body ds st' h
      rw [ParseBody] at h
      exact absurd h (by simp)
    · intro fin sr attrs blocks ds0 st body ds st' h _
      rw [parseBodyLoop] at h
      exact absurd h (by simp)
    · intro st item ds st' h
      rw [ParseBodyItem] at h
      exact absurd h (by simp)
    · intro ident st item ds st' h
      rw [finishParsingBodyBlock] at h
      exact absurd h (by simp)
    · intro ident btype labels lranges ds0 st item ds st' h
      rw [finishBlockLoop] at h
      exact absurd h (by simp)
  | succ f ih =>
    obtain ⟨ihPB, ihLoop, ihItem, ihFBB, ihFBL⟩ := ih
    refine ⟨?_, ?_, ?_, ?_, ?_⟩
    · -- ParseBody delegates to the loop with empty accumulators
      intro fin st body ds st' h
      rw [ParseBody] at h
      exact ihLoop fin st.last [] [] [] st body ds st' h
        (by intro b hb; simp [allBlocksList] at hb)
    · -- parseBodyLoop
      intro fin sr attrs blocks ds0 st body ds st' h hacc
      rw [parseBodyLoop] at h
      try dsimp only at h
      split at h
      · -- terminator reached: the body is built from the accumulator
        simp only [Option.some.injEq, Prod.mk.injEq] at h
        intro b hb
        rw [← h.1] at hb
        exact hacc b (by simpa [allBlocksBody] using hb)
      · split at h
        · -- newline: skip
          exact ihLoop _ _ _ _ _ _ _ _ _ h hacc
        · -- identifier: parse one item
          split at h
          · exact absurd h (by simp)
          · next item itemDiags st1 heqItem =>
            try dsimp only at h
            split at h
            · -- a block is appended to the accumulator
              next bblk =>
              refine ihLoop _ _ _ _ _ _ _ _ _ h ?_
              intro b hb
              rw [allBlocksList_append] at hb
              rcases List.mem_append.mp hb with hb | hb
              · exact hacc b hb
              · exact ihItem _ _ _ _ heqItem bblk rfl b
                  (by simpa [allBlocksList] using hb)
            · -- an attribute: the accumulated blocks are unchanged
              next aatt =>
              split at h
              · exact ihLoop _ _ _ _ _ _ _ _ _ h hacc
              · exact ihLoop _ _ _ _ _ _ _ _ _ h hacc
            · -- a nil item: the accumulated blocks are unchanged
              exact ihLoop _ _ _ _ _ _ _ _ _ h hacc
        · -- unexpected token: body built from the accumulator, then recovery
          try dsimp only at h
          simp only [Option.some.injEq, Prod.mk.injEq] at h
          intro b hb
          rw [← h.1] at hb
          exact hacc b (by simpa [allBlocksBody] using hb)
    · -- ParseBodyItem
      intro st item ds st' h b hbitem
      rw [ParseBodyItem] at h
      try dsimp only at h
      split at h
      · split at h
        · -- equals: the attribute parser never returns a block
          exact absurd hbitem (finishParsingBodyAttribute_no_block f _ _ _ _ _ h b)
        · -- opening quote: block
          exact ihFBB _ _ _ _ _ h b hbitem
        · -- opening brace: block
          exact ihFBB _ _ _ _ _ h b hbitem
        · -- anything else: nil item
          simp only [Option.some.injEq, Prod.mk.injEq] at h
          rw [← h.1] at hbitem
          exact absurd hbitem (by simp)
      · -- leading token is not an identifier: nil item
        simp only [Option.some.injEq, Prod.mk.injEq] at h
        rw [← h.1] at hbitem
        exact absurd hbitem (by simp)
    · -- finishParsingBodyBlock delegates to the label loop
      intro ident st item ds st' h b hbitem
      rw [finishParsingBodyBlock] at h
      exact ihFBL _ _ _ _ _ _ _ _ _ h rfl b hbitem
    · -- finishBlockLoop: labels and ranges are always appended together
      intro ident btype labels lranges ds0 st item ds st' h hlen b hbitem
      rw [finishBlockLoop] at h
      split at h
      · -- opening brace: complete block around a recursively parsed body
        try dsimp only at h
        split at h
        · exact absurd h (by simp)
        · next body bodyDiags st2 heqPB =>
          simp only [Option.some.injEq, Prod.mk.injEq] at h
          rw [← h.1] at hbitem
          simp only [Option.some.injEq, Node.block.injEq] at hbitem
          intro x hx
          rw [← hbitem] at hx
          simp only [allBlocksBlock] at hx
          rcases List.mem_cons.mp hx with hx | hx
          · subst hx
            simpa [okBlock, Block.labels, Block.labelRanges] using hlen
          · exact ihPB _ _ _ _ _ heqPB x hx
      · -- quoted label
        try dsimp only at h
        split at h
        · exact absurd h (by simp)
        · next label labelRange labelDiags st1 heqQ =>
          try dsimp only at h
          split at h
          · -- label errored: partial block, label and range both appended
            simp only [Option.some.injEq, Prod.mk.injEq] at h
            rw [← h.1] at hbitem
            simp only [Option.some.injEq, Node.block.injEq] at hbitem
            intro x hx
            rw [← hbitem] at hx
            simp only [allBlocksBlock] at hx
            rcases List.mem_cons.mp hx with hx | hx
            · subst hx
              simp [okBlock, Block.labels, Block.labelRanges, hlen]
            · simp at hx
          · -- label fine: loop on with both lists extended
            exact ihFBL _ _ _ _ _ _ _ _ _ h (by simp [hlen]) b hbitem
      · -- header error: partial block from the current accumulators
        try dsimp only at h
        simp only [Option.some.injEq, Prod.mk.injEq] at h
        rw [← h.1] at hbitem
        simp only [Option.some.injEq, Node.block.injEq] at hbitem
        intro x hx
        rw [← hbitem] at hx
        simp only [allBlocksBlock] at hx
        rcases List.mem_cons.mp hx with hx | hx
        · subst hx
          simpa [okBlock, Block.labels, Block.labelRanges] using hlen
        · simp at hx

/-- C9: every Block value in a parsed body — top-level or nested, complete or
partial (header-error) — has label and label-range sequences of equal
length. -/
theorem c9_labels_ranges_equal_length (fuel : Nat) (fin : TokenType) (st : PState)
    (body : Body) (ds : Diags) (st' : PState)
    (h : ParseBody fuel fin st = some (body, ds, st')) :
    ∀ b ∈ allBlocksBody body, b.labels.length = b.labelRanges.length := by
  intro b hb
  exact (label_length_invariant fuel).1 fin st body ds st' h b hb

theorem read_cons (t : Token) (rest : List Token) (last : Range) (rec : Bool)
    (h : t.type ≠ TokenEOF) :
    PState.read { toks := t :: rest, last := last, recovery := rec } =
      (t, { toks := rest, last := t.range, recovery := rec }) := by
  unfold PState.read
  simp [h]

theorem scan_plain :
    ∀ bs : List Char, (∀ c ∈ bs, c ≠ '\r') →
      scanGraphemeClusters bs = bs.map (fun c => [c]) := by
  intro bs
  induction bs with
  | nil => intro _; rfl
  | cons c rest ih =>
    intro h
    rw [scan_cons_of_not_crlf c rest
      (fun r2 hc _ => absurd hc (h c (List.mem_cons_self c rest)))]
    rw [ih (fun x hx => h x (List.mem_cons_of_mem c hx))]
    rfl

theorem decodeFold_plain (fname : String) :
    ∀ (bs : List Char) (S : DecSt), (∀ c ∈ bs, plainChar c) → S.esc = [] →
      (List.foldl (decodeStep true fname) S (bs.map fun c => [c])).ret = S.ret ++ bs ∧
      (List.foldl (decodeStep true fname) S (bs.map fun c => [c])).diags = S.diags ∧
      (List.foldl (decodeStep true fname) S (bs.map fun c => [c])).esc = [] := by
  intro bs
  induction bs with
  | nil =>
    intro S h hesc
    exact ⟨by simp, by simp, by simpa using hesc⟩
  | cons c rest ih =>
    intro S h hesc
    obtain ⟨h1, h2, h3, _, _⟩ := h c (List.mem_cons_self c rest)
    have hTriple : (decodeStep true fname S [c]).ret = S.ret ++ [c] ∧
        (decodeStep true fname S [c]).diags = S.diags ∧
        (decodeStep true fname S [c]).esc = [] := by
      obtain ⟨np, esc, ret, dg⟩ := S
      simp only at hesc
      subst hesc
      simp [decodeStep, h1, h2, h3]
    rw [List.map_cons, List.foldl_cons]
    obtain ⟨e1, e2, e3⟩ := ih (decodeStep true fname S [c])
      (fun x hx => h x (List.mem_cons_of_mem c hx)) hTriple.2.2
    refine ⟨?_, ?_, e3⟩
    · rw [e1, hTriple.1, List.append_assoc, List.singleton_append]
    · rw [e2, hTriple.2.1]

theorem decodeStringLitCore_plain (fname : String) (p0 : Pos) (l : String)
    (h : ∀ c ∈ l.data, plainChar c) :
    decodeStringLitCore true fname p0 l.data = (l, []) := by
  unfold decodeStringLitCore decodeFold
  rw [scan_plain l.data (fun c hc => (h c hc).2.2.2.1)]
  obtain ⟨r1, r2, _⟩ := decodeFold_plain fname l.data
    { newPos := p0, esc := [], ret := [], diags := [] } h rfl
  simp only [r1, r2]
  rfl

theorem pqsl_plain_label (fuel : Nat) (l : String) (hl : ∀ c ∈ l.data, plainChar c)
    (tail : List Token) (last : Range) (rec : Bool) :
    parseQuotedStringLiteral (fuel + 3)
      { toks := genLabelToks l ++ tail, last := last, recovery := rec } =
      some (l, rng 0 0, [], { toks := tail, last := rng 0 0, recovery := rec }) := by
  show parseQuotedStringLiteral (fuel + 2 + 1) _ = _
  rw [parseQuotedStringLiteral]
  rw [show genLabelToks l ++ tail = tk TokenOQuote "\"" 0 0 ::
    tk TokenQuotedLit l 0 0 :: tk TokenCQuote "\"" 0 0 :: tail from rfl]
  rw [read_cons _ _ _ _ (by simp [tk])]
  dsimp only
  rw [if_pos (show (tk TokenOQuote "\"" 0 0).type = TokenOQuote from rfl)]
  rw [show fuel + 2 = fuel + 1 + 1 from rfl, pqslLoop]
  rw [read_cons _ _ _ _ (by simp [tk])]
  dsimp only
  show (match pqslLoop (fuel + 1) (tk TokenOQuote "\"" 0 0)
      ("" ++ ((decodeStringLit (tk TokenQuotedLit l 0 0)).getD ("", [])).1)
      ([] ++ ((decodeStringLit (tk TokenQuotedLit l 0 0)).getD ("", [])).2)
      { toks := tk TokenCQuote "\"" 0 0 :: tail, last := rng 0 0, recovery := rec } with
    | none => none
    | some (text, cQuote, diags, st2) =>
      some (text, rangeBetween (tk TokenOQuote "\"" 0 0).range cQuote.range, diags, st2)) = _
  have hdec : decodeStringLit (tk TokenQuotedLit l 0 0) = some (l, []) := by
    unfold decodeStringLit
    rw [show (tk TokenQuotedLit l 0 0).type = TokenQuotedLit from rfl]
    rw [show (tk TokenQuotedLit l 0 0).range.filename = "t" from rfl]
    rw [show (tk TokenQuotedLit l 0 0).range.start = (⟨1, 0, 0⟩ : Pos) from rfl]
    rw [show (tk TokenQuotedLit l 0 0).bytes = l.data from rfl]
    rw [decodeStringLitCore_plain "t" ⟨1, 0, 0⟩ l hl]
  rw [hdec]
  show (match pqslLoop (fuel + 0 + 1) (tk TokenOQuote "\"" 0 0) ("" ++ l) ([] ++ [])
      { toks := tk TokenCQuote "\"" 0 0 :: tail, last := rng 0 0, recovery := rec } with
    | none => none
    | some (text, cQuote, diags, st2) =>
      some (text, rangeBetween (tk TokenOQuote "\"" 0 0).range cQuote.range, diags, st2)) = _
  rw [pqslLoop]
  rw [read_cons _ _ _ _ (by simp [tk])]
  dsimp only
  have haccl : "" ++ l = l := by
    cases l
    rfl
  rw [haccl]
  rfl

theorem finishBlockLoop_labels :
    ∀ (ls : List String) (fuel : Nat), (∀ l ∈ ls, ∀ c ∈ l.data, plainChar c) →
      fuel ≥ ls.length + 4 →
      ∀ (ident : Token) (btype : String) (done : List String) (dranges : List Range)
        (ds0 : Diags) (tailToks : List Token),
      finishBlockLoop fuel ident btype done dranges ds0
        { toks := genLabelsToks ls ++ tailToks, last := rng 0 0, recovery := false } =
      finishBlockLoop (fuel - ls.length) ident btype (done ++ ls)
        (dranges ++ ls.map fun _ => rng 0 0) ds0
        { toks := tailToks, last := rng 0 0, recovery := false } := by
  intro ls
  induction ls with
  | nil =>
    intro fuel _ _ ident btype done dranges ds0 tailToks
    simp [genLabelsToks]
  | cons l ls' ih =>
    intro fuel hpl hfuel ident btype done dranges ds0 tailToks
    obtain ⟨F, rfl⟩ : ∃ F, fuel = F + 1 := ⟨fuel - 1, by omega⟩
    obtain ⟨G, rfl⟩ : ∃ G, F = G + 3 := ⟨F - 3, by omega⟩
    have hpeek : PState.peek
        { toks := genLabelsToks (l :: ls') ++ tailToks, last := rng 0 0, recovery := false } =
        tk TokenOQuote "\"" 0 0 := by
      simp [genLabelsToks, genLabelToks, PState.peek]
    rw [finishBlockLoop]
    try dsimp only
    split
    · next heq =>
      rw [hpeek] at heq
      exact absurd heq (by simp [tk])
    · next heq =>
      rw [show genLabelsToks (l :: ls') ++ tailToks =
        genLabelToks l ++ (genLabelsToks ls' ++ tailToks) from by simp [genLabelsToks]]
      rw [pqsl_plain_label G l (hpl l (List.mem_cons_self l ls'))]
      dsimp only
      rw [if_neg (by simp [hasErrors])]
      rw [List.append_nil]
      rw [ih (G + 3) (fun x hx => hpl x (List.mem_cons_of_mem l hx)) (by
        simp only [List.length_cons] at hfuel
        omega)]
      simp [Nat.succ_sub_succ]
    · next heq =>
      rw [hpeek] at heq
      exact absurd heq (by simp [tk])

theorem tk_type (ty : TokenType) (s : String) (a b : Nat) : (tk ty s a b).type = ty := rfl

theorem tk_range (ty : TokenType) (s : String) (a b : Nat) : (tk ty s a b).range = rng a b := rfl

theorem tk_bytes (ty : TokenType) (s : String) (a b : Nat) : (tk ty s a b).bytes = s.data := rfl

theorem genLoop : ∀ (n : Nat) (items : List GItem), sizeOf items ≤ n →
    ∀ (fin : TokenType) (tEND : Token) (rest : List Token) (fuel : Nat)
      (attrs : List (String × Attribute)) (blocks : List Block) (ds0 : Diags),
      (fin = TokenCBrace ∨ fin = TokenEOF) →
      tEND.type = fin → tEND.range = rng 0 0 →
      wfItems items →
      fuel ≥ itemsFuel items →
      parseBodyLoop fuel fin (rng 0 0) attrs blocks ds0
        { toks := genItemsToks items ++ tEND :: rest, last := rng 0 0, recovery := false } =
      some (Body.mk attrs (blocks ++ genBlocksList items)
          (rng 0 0) (rng 0 0), ds0,
        if fin = TokenEOF
        then { toks := tEND :: rest, last := rng 0 0, recovery := false }
        else { toks := rest, last := rng 0 0, recovery := false }) := by
  intro n
  induction n with
  | zero =>
    intro items hsize
    exfalso
    cases items <;> simp at hsize
  | succ n ihn =>
    intro items hsize fin tEND rest fuel attrs blocks ds0 hfin htEND htR hwf hfuel
    match items with
    | [] =>
      simp only [itemsFuel] at hfuel
      obtain ⟨F, rfl⟩ : ∃ F, fuel = F + 1 := ⟨fuel - 1, by omega⟩
      simp only [genItemsToks, List.nil_append]
      rw [parseBodyLoop]
      try dsimp only
      rw [if_pos (show (PState.peek
        { toks := tEND :: rest, last := rng 0 0, recovery := false }).type = fin
        from by simpa [PState.peek] using htEND)]
      rw [show PState.peek { toks := tEND :: rest, last := rng 0 0, recovery := false } =
        tEND from rfl]
      rw [htR]
      rcases hfin with hf' | hf' <;> subst hf'
      · have hne : tEND.type ≠ TokenEOF := by rw [htEND]; decide
        rw [read_cons _ _ _ _ hne, htR]
        rw [if_neg (by decide : ¬(TokenCBrace = TokenEOF))]
        simp [genBlocksList, rangeBetween, rng]
      · have hrd : PState.read
            { toks := tEND :: rest, last := rng 0 0, recovery := false } =
            (tEND, { toks := tEND :: rest, last := rng 0 0, recovery := false }) := by
          unfold PState.read
          simp [htEND]
        rw [hrd]
        rw [if_pos rfl]
        simp [genBlocksList, rangeBetween, rng]
    | GItem.gblock btype labels inner :: rest' =>
      simp only [itemsFuel, itemFuel] at hfuel
      simp only [wfItems] at hwf
      obtain ⟨hlab, hwfI, hwfR⟩ := hwf
      have hsizeI : sizeOf inner ≤ n := by simp at hsize; omega
      have hsizeR : sizeOf rest' ≤ n := by simp at hsize; omega
      have hstream : genItemsToks (GItem.gblock btype labels inner :: rest') ++
          tEND :: rest =
          tk TokenIdent btype 0 0 :: (genLabelsToks labels ++
            (tk TokenOBrace "\x7b" 0 0 :: (genItemsToks inner ++
              tk TokenCBrace "\x7d" 0 0 :: (genItemsToks rest' ++ tEND :: rest)))) := by
        simp [genItemsToks, genItemToks]
      obtain ⟨F1, rfl⟩ : ∃ F1, fuel = F1 + 1 := ⟨fuel - 1, by omega⟩
      rw [hstream, parseBodyLoop]
      try dsimp only
      rw [if_neg (show ¬(PState.peek { toks := tk TokenIdent btype 0 0 :: (genLabelsToks labels ++ (tk TokenOBrace "\x7b" 0 0 :: (genItemsToks inner ++ tk TokenCBrace "\x7d" 0 0 :: (genItemsToks rest' ++ tEND :: rest)))), last := rng 0 0, recovery := false }).type = fin from by
        rcases hfin with hf' | hf' <;> subst hf' <;> simp [PState.peek, tk])]
      have hitem : ParseBodyItem F1 { toks := tk TokenIdent btype 0 0 :: (genLabelsToks labels ++ (tk TokenOBrace "\x7b" 0 0 :: (genItemsToks inner ++ tk TokenCBrace "\x7d" 0 0 :: (genItemsToks rest' ++ tEND :: rest)))), last := rng 0 0, recovery := false } =
          some (some (Node.block (Block.mk btype labels
            (some (Body.mk [] (genBlocksList inner) (rng 0 0) (rng 0 0)))
            (rng 0 0) (labels.map fun _ => rng 0 0) (rng 0 0) (rng 0 0))), [],
            { toks := genItemsToks rest' ++ tEND :: rest, last := rng 0 0, recovery := false }) := by
        obtain ⟨F2, rfl⟩ : ∃ F2, F1 = F2 + 1 := ⟨F1 - 1, by omega⟩
        rw [ParseBodyItem]
        rw [read_cons _ _ _ _ (by simp [tk])]
        try dsimp only
        rw [if_pos (show (tk TokenIdent btype 0 0).type = TokenIdent from rfl)]
        simp only [tk_range]
        have hfbb : finishParsingBodyBlock F2 (tk TokenIdent btype 0 0)
            { toks := genLabelsToks labels ++ (tk TokenOBrace "\x7b" 0 0 :: (genItemsToks inner ++ tk TokenCBrace "\x7d" 0 0 :: (genItemsToks rest' ++ tEND :: rest))), last := rng 0 0, recovery := false } =
            some (some (Node.block (Block.mk btype labels
              (some (Body.mk [] (genBlocksList inner) (rng 0 0)
                (rng 0 0)))
              (rng 0 0) (labels.map fun _ => rng 0 0) (rng 0 0) (rng 0 0))), [],
              { toks := genItemsToks rest' ++ tEND :: rest, last := rng 0 0, recovery := false }) := by
          obtain ⟨F3, rfl⟩ : ∃ F3, F2 = F3 + 1 := ⟨F2 - 1, by omega⟩
          rw [finishParsingBodyBlock]
          rw [finishBlockLoop_labels labels F3 hlab (by omega)]
          obtain ⟨F4, hF4⟩ : ∃ F4, F3 - labels.length = F4 + 1 :=
            ⟨F3 - labels.length - 1, by omega⟩
          rw [hF4, finishBlockLoop]
          try dsimp only
          split
          · -- the opening brace begins the nested body
            rw [read_cons _ _ _ _ (by simp [tk])]
            try dsimp only
            simp only [tk_range]
            obtain ⟨F5, rfl⟩ : ∃ F5, F4 = F5 + 1 := ⟨F4 - 1, by omega⟩
            rw [ParseBody]
            rw [ihn inner hsizeI TokenCBrace (tk TokenCBrace "\x7d" 0 0)
              (genItemsToks rest' ++ tEND :: rest) F5 [] [] []
              (Or.inl rfl) rfl rfl hwfI (by omega)]
            rw [if_neg (by decide : ¬(TokenCBrace = TokenEOF))]
            try dsimp only
            simp [tk_bytes, tk_range]
          · next heq =>
            exfalso
            simp [PState.peek, tk] at heq
          · exfalso
            rename_i hOB hOQ
            exact hOB (by simp [PState.peek, tk])
        split
        · next heq =>
          exfalso
          cases labels <;>
            simp [genLabelsToks, genLabelToks, PState.peek, tk] at heq
        · exact hfbb
        · exact hfbb
        · exfalso
          rename_i hEq hOQ hOB
          cases labels with
          | nil => exact hOB (by simp [genLabelsToks, PState.peek, tk])
          | cons l0 ls0 =>
            exact hOQ (by simp [genLabelsToks, genLabelToks, PState.peek, tk])
      split
      · next heq => exact absurd heq (by simp [PState.peek, tk])
      · next heq =>
        rw [hitem]
        try dsimp only
        rw [List.append_nil]
        rw [ihn rest' hsizeR fin tEND rest F1 attrs
          (blocks ++ [Block.mk btype labels
            (some (Body.mk [] (genBlocksList inner) (rng 0 0) (rng 0 0)))
            (rng 0 0) (labels.map fun _ => rng 0 0) (rng 0 0) (rng 0 0)]) ds0
          hfin htEND htR hwfR (by omega)]
        simp [genBlocksList, List.append_assoc]
      · exfalso
        rename_i hNl hId
        exact hId (by simp [PState.peek, tk])

theorem genBlocksList_btypes :
    ∀ items : List GItem, (genBlocksList items).map Block.btype = blockTypes items
  | [] => by simp [genBlocksList, blockTypes]
  | .gblock b l i :: rest => by
    simp only [genBlocksList, blockTypes, List.map_cons]
    rw [genBlocksList_btypes rest]
    rfl

/-- The parse of any stream whose first two tokens are an identifier and an
equals sign — the shape of every attribute definition — is `none` at every
fuel: ParseBodyItem dispatches the equals sign to finishParsingBodyAttribute,
which is the source's unconditional panic (parser.go line 150), and the panic
propagates out of parseBodyLoop.  `none` at EVERY fuel is the modelled
non-return; fuel exhaustion alone could only account for `none` at small
fuels. -/
theorem parseBody_none_on_attr (fuel : Nat) (t1 t2 : Token)
    (h1 : t1.type = TokenIdent) (h2 : t2.type = TokenEqual)
    (hne : t1.type ≠ TokenEOF) (rest : List Token) (last : Range) :
    ParseBody fuel TokenType.TokenEOF
      { toks := t1 :: t2 :: rest, last := last, recovery := false } = none := by
  match fuel with
  | 0 => rw [ParseBody]
  | f + 1 =>
    rw [ParseBody]
    match f with
    | 0 => rw [parseBodyLoop]
    | f + 1 =>
    rw [parseBodyLoop]
    try dsimp only
    rw [if_neg (show ¬(PState.peek
      { toks := t1 :: t2 :: rest, last := last, recovery := false }).type = TokenEOF
      from by simpa [PState.peek] using hne)]
    have hitem : ParseBodyItem f
        { toks := t1 :: t2 :: rest, last := last, recovery := false } = none := by
      match f with
      | 0 => rw [ParseBodyItem]
      | g + 1 =>
        rw [ParseBodyItem]
        rw [read_cons _ _ _ _ (by rw [h1]; decide)]
        try dsimp only
        rw [if_pos h1]
        split
        · rw [finishParsingBodyAttribute]
        · next heq =>
          exfalso
          rw [show PState.peek { toks := t2 :: rest, last := t1.range, recovery := false } =
            t2 from rfl, h2] at heq
          exact absurd heq (by decide)
        · next heq =>
          exfalso
          rw [show PState.peek { toks := t2 :: rest, last := t1.range, recovery := false } =
            t2 from rfl, h2] at heq
          exact absurd heq (by decide)
        · exfalso
          rename_i hEq hOQ hOB
          exact hEq (by rw [show PState.peek
            { toks := t2 :: rest, last := t1.range, recovery := false } = t2 from rfl, h2])
    split
    · next heq =>
      exfalso
      rw [show PState.peek { toks := t1 :: t2 :: rest, last := last, recovery := false } =
        t1 from rfl, h1] at heq
      exact absurd heq (by decide)
    · rw [hitem]
    · exfalso
      rename_i hNl hId
      exact hId (by rw [show PState.peek
        { toks := t1 :: t2 :: rest, last := last, recovery := false } = t1 from rfl, h1])

/-- C1: the claim fails on the code — the block half of the round trip holds,
but the attribute half cannot: the source's finishParsingBodyAttribute
(parser.go lines 149-151) panics unconditionally, so any body containing even
one attribute crashes the parser before it returns.  First conjunct: for
every well-formed generated description of M blocks (plain labels, arbitrary
nesting), ParseBody returns zero diagnostics, an EMPTY attribute map and the
M blocks in source order.  Second conjunct: on the minimal well-formed
attribute body `a = 1` newline (N = 1, no syntax errors), the parse is `none`
at every fuel — the modelled panic, never a Body with an attribute map of
size N. -/
theorem c1_roundtrip_blocks_only_attrs_panic :
    (∀ items : List GItem, wfItems items →
      ParseBody (itemsFuel items + 1) TokenType.TokenEOF
        { toks := genItemsToks items ++ [tk TokenType.TokenEOF "" 0 0], last := rng 0 0,
          recovery := false } =
        some (Body.mk [] (genBlocksList items) (rng 0 0) (rng 0 0), [],
          { toks := [tk TokenType.TokenEOF "" 0 0], last := rng 0 0, recovery := false }) ∧
      (genBlocksList items).map Block.btype = blockTypes items) ∧
    (∀ fuel : Nat, ParseBody fuel TokenType.TokenEOF (mkState c1AttrStream) = none) := by
  constructor
  · intro items hwf
    refine ⟨?_, genBlocksList_btypes items⟩
    rw [ParseBody]
    have hmain := genLoop (sizeOf items) items le_rfl TokenEOF
      (tk TokenEOF "" 0 0) [] (itemsFuel items) [] [] []
      (Or.inr rfl) rfl rfl hwf le_rfl
    simpa using hmain
  · intro fuel
    rw [show mkState c1AttrStream =
      { toks := tk TokenIdent "a" 1 2 :: tk TokenEqual "=" 3 4 ::
          (tk TokenNumberLit "1" 5 6 :: tk TokenNewline "\n" 6 7 ::
            [tk TokenEOF "" 7 7]),
        last := rng 1 2, recovery := false } from rfl]
    exact parseBody_none_on_attr fuel _ _ rfl rfl (by decide) _ _

/-- C1 witness: the two-block description `srv "web" \x7b x \x7b\x7d \x7d`,
`b \x7b\x7d` parses with zero diagnostics to an empty attribute map and the
block list srv, b in source order, and the attribute body `a = 1` is `none`
at fuel 20. -/
theorem c1_roundtrip_blocks_only_attrs_panic_witness :
    (ParseBody (itemsFuel c1Items + 1) TokenType.TokenEOF
      { toks := genItemsToks c1Items ++ [tk TokenType.TokenEOF "" 0 0], last := rng 0 0,
        recovery := false } =
      some (Body.mk [] (genBlocksList c1Items) (rng 0 0) (rng 0 0), [],
        { toks := [tk TokenType.TokenEOF "" 0 0], last := rng 0 0, recovery := false }) ∧
    (genBlocksList c1Items).map Block.btype = blockTypes c1Items) ∧
    ParseBody 20 TokenType.TokenEOF (mkState c1AttrStream) = none ∧
    blockTypes c1Items = ["srv", "b"] :=
  ⟨c1_roundtrip_blocks_only_attrs_panic.1 c1Items
      (by simp [c1Items, wfItems, plainChar]),
    c1_roundtrip_blocks_only_attrs_panic.2 20,
    by simp [c1Items, blockTypes]⟩

/-- C3: the claim fails on the code — parsing the body `a = 1` newline `a = 2`
newline never yields the claimed "Attribute redefined" diagnostic, because the
first item's equals sign sends ParseBodyItem into finishParsingBodyAttribute,
the source's unconditional panic (parser.go line 150), before any Attribute
exists; ParseBody's duplicate-attribute handling (parser.go lines 50-62) is
unreachable.  The parse is `none` (the modelled panic) at every fuel — never
a diagnostic list or an attribute map. -/
theorem c3_attribute_redefined_unreachable :
    ∀ fuel : Nat, ParseBody fuel TokenType.TokenEOF (mkState c3Stream) = none := by
  intro fuel
  rw [show mkState c3Stream =
    { toks := tk TokenIdent "a" 1 2 :: tk TokenEqual "=" 3 4 ::
        (tk TokenNumberLit "1" 5 6 :: tk TokenNewline "\n" 6 7 ::
          tk TokenIdent "a" 8 9 :: tk TokenEqual "=" 10 11 ::
          tk TokenNumberLit "2" 12 13 :: tk TokenNewline "\n" 13 14 ::
          [tk TokenEOF "" 14 14]),
      last := rng 1 2, recovery := false } from rfl]
  exact parseBody_none_on_attr fuel _ _ rfl rfl (by decide) _ _

theorem wfItems_nest : ∀ n : Nat, wfItems (nestItems n)
  | 0 => by simp [nestItems, wfItems]
  | n + 1 => by
    simp only [nestItems, wfItems]
    exact ⟨by simp, wfItems_nest n, trivial⟩

theorem nest_fuel_short :
    ∀ (m : Nat) (f : Nat), f ≤ 5 * m → ∀ fin : TokenType,
      (fin = TokenCBrace ∨ fin = TokenEOF) → ∀ tail : List Token,
      ParseBody f fin
        { toks := genItemsToks (nestItems m) ++ tail, last := rng 0 0,
          recovery := false } = none := by
  intro m
  induction m with
  | zero =>
    intro f hf fin _ tail
    obtain rfl : f = 0 := by omega
    rw [ParseBody]
  | succ m ihm =>
    intro f hf fin hfin tail
    have hstream : genItemsToks (nestItems (m + 1)) ++ tail =
        tk TokenIdent "a" 0 0 :: tk TokenOBrace "\x7b" 0 0 ::
        (genItemsToks (nestItems m) ++ (tk TokenCBrace "\x7d" 0 0 :: tail)) := by
      simp [nestItems, genItemsToks, genItemToks, genLabelsToks]
    match f with
    | 0 => rw [ParseBody]
    | f1 + 1 =>
      rw [ParseBody]
      match f1 with
      | 0 => rw [parseBodyLoop]
      | f2 + 1 =>
        rw [hstream, parseBodyLoop]
        try dsimp only
        rw [if_neg (show ¬(PState.peek { toks := tk TokenIdent "a" 0 0 :: tk TokenOBrace "\x7b" 0 0 :: (genItemsToks (nestItems m) ++ (tk TokenCBrace "\x7d" 0 0 :: tail)), last := rng 0 0, recovery := false }).type = fin from by
          rcases hfin with hf' | hf' <;> subst hf' <;> simp [PState.peek, tk])]
        have hnone : ParseBodyItem f2 { toks := tk TokenIdent "a" 0 0 :: tk TokenOBrace "\x7b" 0 0 :: (genItemsToks (nestItems m) ++ (tk TokenCBrace "\x7d" 0 0 :: tail)), last := rng 0 0, recovery := false } = none := by
          match f2 with
          | 0 => rw [ParseBodyItem]
          | f3 + 1 =>
            rw [ParseBodyItem]
            rw [read_cons _ _ _ _ (by simp [tk])]
            try dsimp only
            rw [if_pos (show (tk TokenIdent "a" 0 0).type = TokenIdent from rfl)]
            split
            · next heq => exact absurd heq (by simp [PState.peek, tk])
            · next heq => exact absurd heq (by simp [PState.peek, tk])
            · -- the opening brace: block parsing
              match f3 with
              | 0 => rw [finishParsingBodyBlock]
              | f4 + 1 =>
                rw [finishParsingBodyBlock]
                match f4 with
                | 0 => rw [finishBlockLoop]
                | f5 + 1 =>
                  rw [finishBlockLoop]
                  try dsimp only
                  split
                  · rw [read_cons _ _ _ _ (by simp [tk])]
                    try dsimp only
                    simp only [tk_range]
                    rw [ihm f5 (by omega) TokenCBrace (Or.inl rfl)
                      (tk TokenCBrace "\x7d" 0 0 :: tail)]
                  · next heq => exact absurd heq (by simp [PState.peek, tk])
                  · exfalso
                    rename_i hOB hOQ
                    exact hOB (by simp [PState.peek, tk])
            · exfalso
              rename_i hEq hOQ hOB
              exact hOB (by simp [PState.peek, tk])
        split
        · next heq => exact absurd heq (by simp [PState.peek, tk])
        · rw [hnone]
        · exfalso
          rename_i hNl hId
          exact hId (by simp [PState.peek, tk])

/-- C8: evidence for both halves of the depth analysis.  First, for every
nesting depth n the parse of `a\x7ba\x7b...\x7d\x7d` succeeds with ZERO
diagnostics once given fuel linear in n — in particular the parser never
reports any resource-limit diagnostic, at any depth.  Second, fuel n (one unit
per parse-function call in this embedding) never suffices for depth n: the
call depth of the source's native recursion grows without bound in the
nesting depth, with no explicit limit. -/
theorem c8_nested_blocks_unbounded_recursion (n : Nat) :
    ParseBody (itemsFuel (nestItems n) + 1) TokenType.TokenEOF
      { toks := genItemsToks (nestItems n) ++ [tk TokenType.TokenEOF "" 0 0],
        last := rng 0 0, recovery := false } =
      some (Body.mk [] (genBlocksList (nestItems n))
          (rng 0 0) (rng 0 0), [],
        { toks := [tk TokenType.TokenEOF "" 0 0], last := rng 0 0, recovery := false }) ∧
    ParseBody n TokenType.TokenEOF
      { toks := genItemsToks (nestItems n) ++ [tk TokenType.TokenEOF "" 0 0],
        last := rng 0 0, recovery := false } = none := by
  constructor
  · rw [ParseBody]
    have hmain := genLoop (sizeOf (nestItems n)) (nestItems n) le_rfl TokenEOF
      (tk TokenEOF "" 0 0) [] (itemsFuel (nestItems n)) [] [] []
      (Or.inr rfl) rfl rfl (wfItems_nest n) le_rfl
    simpa using hmain
  · exact nest_fuel_short n n (by omega) TokenEOF (Or.inr rfl) [tk TokenEOF "" 0 0]

/-- C9 witness: the block parsed from `b "x" \x7b\x7d` has one label and one
label range. -/
theorem c9_labels_ranges_equal_length_witness :
    c9Block.labels.length = c9Block.labelRanges.length :=
  c9_labels_ranges_equal_length 20 TokenType.TokenEOF (mkState c9Stream)
    (Body.mk [] [c9Block] (rng 1 9) (rng 9 9)) []
    { toks := [tk TokenType.TokenEOF "" 9 9], last := rng 8 9, recovery := false }
    rfl c9Block
    (by simp [allBlocksBody, allBlocksList, allBlocksBlock, c9Block])

end Zcl
